import Mathlib

/-!
Verification development for the publication-plan resolver
(src/config/resolve.ts of the vivliostyle CLI repository).

Modelling conventions for the shallow embedding:

* A filesystem path is abstracted to its list of path segments
  (`Path`), always absolute.  The upath functions `resolve`, `join`,
  `relative`, `dirname`, `basename` become list operations
  (`normSegs`, `relSegs`, ...).  A path literal appearing in the
  configuration is a `PathSpec` (absolute or relative segment list),
  mirroring the string shapes the code distinguishes with
  `startsWith` tests.
* Filesystem reads (`fs.existsSync`, `statFileSync`,
  `readMarkdownMetadata`, the html title scan) are modelled by an
  environment `Env` listing the existing files together with the
  metadata those reads would produce.  `mime` (the media-type lookup
  by file extension) is a pure table on the extension of the last
  segment.
* Thrown configuration errors become `Except RErr`; the mutable
  accumulators of the resolver (the theme index `Set`, the
  `exportAliases` array, `touchTmpFile` calls, `logWarn` calls, and
  object allocation) are threaded through an explicit state `RState`.
* A JavaScript `Set` of objects deduplicates by object identity.
  Object identity of `ParsedTheme` records is modelled by an
  allocation counter: every record constructed by `parseTheme`
  carries a fresh numeric id (`ThemeRef`), and the theme index is a
  list of such references deduplicated by id.
-/

namespace Spec2Proof

/-- A path segment (one component between slashes). -/
abbrev Seg := String

/-- An absolute filesystem path, as its list of segments.  The root is `⟨[]⟩`. -/
structure Path where
  segs : List Seg
deriving DecidableEq, Repr

/-- One step of path normalization, mirroring how `upath.resolve` and
`upath.join` treat `.`, `..` and empty components. -/
def stepSeg (acc : List Seg) (s : Seg) : List Seg :=
  if s = "" ∨ s = "." then acc
  else if s = ".." then acc.dropLast
  else acc ++ [s]

/-- Fold of `stepSeg`: resolve the relative segments `rel` against the
absolute segment list `base` (as `upath.resolve(base, rel)` does). -/
def normSegs (base : List Seg) (rel : List Seg) : List Seg :=
  rel.foldl stepSeg base

/-- A path string of the configuration: either absolute (starts with a
slash) or relative. -/
inductive PathSpec where
  | abs (segs : List Seg)
  | relp (segs : List Seg)
deriving DecidableEq, Repr

/-- Embedding of `upath.resolve(base, spec)` for an absolute `base`. -/
def resolveSpec (base : Path) : PathSpec → Path
  | .abs segs => ⟨normSegs [] segs⟩
  | .relp segs => ⟨normSegs base.segs segs⟩

/-- Embedding of `upath.join(base, seg)` for an absolute `base` and a
single further component. -/
def joinSeg (base : Path) (s : Seg) : Path :=
  ⟨normSegs base.segs [s]⟩

/-- Last segment of a path (`upath.basename`). -/
def Path.lastSeg (p : Path) : Seg :=
  (p.segs.getLast?).getD ""

/-- Parent path (`upath.dirname`). -/
def Path.parent (p : Path) : Path :=
  ⟨p.segs.dropLast⟩

/-- A segment list is clean when it has no empty, `.` or `..` components:
exactly the shape `normSegs` produces. -/
def CleanSegs (l : List Seg) : Prop :=
  ∀ s ∈ l, s ≠ "" ∧ s ≠ "." ∧ s ≠ ".."

instance (l : List Seg) : Decidable (CleanSegs l) :=
  List.decidableBAll _ l

theorem cleanSegs_nil : CleanSegs [] := by
  intro s hs; cases hs

theorem cleanSegs_dropLast {l : List Seg} (h : CleanSegs l) : CleanSegs l.dropLast := by
  intro s hs
  exact h s (List.dropLast_subset l hs)

theorem cleanSegs_stepSeg {acc : List Seg} (h : CleanSegs acc) (s : Seg) :
    CleanSegs (stepSeg acc s) := by
  unfold stepSeg
  split
  · exact h
  · split
    · exact cleanSegs_dropLast h
    · intro t ht
      rcases List.mem_append.mp ht with h1 | h2
      · exact h t h1
      · rcases List.mem_singleton.mp h2 with rfl
        rename_i hns hnd
        push_neg at hns
        exact ⟨hns.1, hns.2, hnd⟩

theorem cleanSegs_normSegs {base : List Seg} (h : CleanSegs base) (rel : List Seg) :
    CleanSegs (normSegs base rel) := by
  induction rel generalizing base with
  | nil => exact h
  | cons s rest ih =>
      simpa [normSegs, List.foldl_cons] using ih (cleanSegs_stepSeg h s)

theorem normSegs_clean_fixed {l : List Seg} (h : CleanSegs l) : normSegs [] l = l := by
  have aux : ∀ (rel base : List Seg), CleanSegs rel → normSegs base rel = base ++ rel := by
    intro rel
    induction rel with
    | nil => intro base _; simp [normSegs]
    | cons s rest ih =>
        intro base hcl
        have hs := hcl s (List.mem_cons_self s rest)
        have hrest : CleanSegs rest := fun t ht => hcl t (List.mem_cons_of_mem s ht)
        have hstep : stepSeg base s = base ++ [s] := by
          unfold stepSeg
          rw [if_neg, if_neg]
          · exact hs.2.2
          · push_neg
            exact ⟨hs.1, hs.2.1⟩
        calc normSegs base (s :: rest)
            = normSegs (stepSeg base s) rest := by simp [normSegs, List.foldl_cons]
          _ = stepSeg base s ++ rest := ih (stepSeg base s) hrest
          _ = base ++ (s :: rest) := by rw [hstep]; simp
  simpa using aux l [] h

/-- Resolving an absolute path built from clean segments is the identity. -/
theorem resolveSpec_abs_clean {p : Path} (h : CleanSegs p.segs) (base : Path) :
    resolveSpec base (.abs p.segs) = p := by
  simp [resolveSpec, normSegs_clean_fixed h]

/-- Splitting a character list at every occurrence of a separator
(structurally recursive String splitting, agreeing with `splitOn` for a
single-character separator). -/
def splitCharList (c : Char) : List Char → List (List Char)
  | [] => [[]]
  | ch :: rest =>
      let r := splitCharList c rest
      if ch = c then [] :: r
      else
        match r with
        | [] => [[ch]]
        | g :: gs => (ch :: g) :: gs

/-- Split a string at every occurrence of a separator character. -/
def splitOnStrChar (c : Char) (s : String) : List String :=
  (splitCharList c s.data).map (fun l => ⟨l⟩)

/-- Suffix test on strings (`String.endsWith`). -/
def strEndsWith (s suff : String) : Bool :=
  suff.data.isSuffixOf s.data

/-- Whether a string starts with the given character
(`String.startsWith` for the path tests of the source). -/
def strStartsWith (s p : String) : Bool :=
  p.data.isPrefixOf s.data

/-- Drop the last `n` characters of a string (`String.dropRight`). -/
def strDropRight (s : String) (n : Nat) : String :=
  ⟨s.data.take (s.data.length - n)⟩

/-- Interleave a separator between strings (`String.intercalate`). -/
def strIntercalate (sep : String) : List String → String
  | [] => ""
  | [a] => a
  | a :: b :: rest => a ++ sep ++ strIntercalate sep (b :: rest)

/-- Whether `sub` occurs as a contiguous run inside `l`. -/
def listInfix [DecidableEq α] (sub : List α) : List α → Bool
  | [] => sub.isPrefixOf []
  | c :: rest => sub.isPrefixOf (c :: rest) || listInfix sub rest

/-- Substring test: whether `sub` occurs inside `s`. -/
def strContains (s sub : String) : Bool :=
  listInfix sub.data s.data

/-- Splitting a raw string on slashes, used wherever the source turns a
free-form string (such as a default output filename) into a path. -/
def strToRelSegs (s : String) : List Seg :=
  splitOnStrChar '/' s

/-- Embedding of the string rewrite `.replace(/\.md$/, ".html")`. -/
def replaceMdHtml (s : String) : String :=
  if strEndsWith s ".md" then (strDropRight s 3) ++ ".html" else s

/-- Replace the final segment extension `.md` by `.html` on a whole path
(the source applies the regex to the resolved path string, which only
affects the final segment). -/
def Path.mdToHtml (p : Path) : Path :=
  ⟨p.segs.dropLast ++ [replaceMdHtml p.lastSeg]⟩

/-- Extension of a file name: the part after the last dot, empty when the
name has no dot. -/
def extOf (s : String) : String :=
  let parts := splitOnStrChar '.' s
  if parts.length ≤ 1 then "" else (parts.getLast?).getD ""

/-- Embedding of the `mime-types` lookup used by `getInputInfo`: the media
type detected from the file extension (`none` models the `false` return
for unknown extensions). -/
def mime (p : Path) : Option String :=
  match extOf p.lastSeg with
  | "md" => some "text/markdown"
  | "markdown" => some "text/markdown"
  | "html" => some "text/html"
  | "htm" => some "text/html"
  | "xhtml" => some "application/xhtml+xml"
  | "png" => some "image/png"
  | "jpg" => some "image/jpeg"
  | "css" => some "text/css"
  | "json" => some "application/json"
  | _ => none

/-- Render a path back to its string form. -/
def pathToString (p : Path) : String :=
  "/" ++ strIntercalate "/" p.segs

/-- Embedding of `upath.resolve(base, s)` for a raw string `s` (used by
the theme resolver, whose specifier is a free-form string). -/
def resolveStr (base : Path) (s : String) : Path :=
  if strStartsWith s "/" then ⟨normSegs [] (strToRelSegs s)⟩
  else ⟨normSegs base.segs (strToRelSegs s)⟩

/-- Embedding of `upath.basename` on a raw string. -/
def basenameStr (s : String) : String :=
  (((strToRelSegs s).filter (· ≠ "")).getLast?).getD ""

/-- Relative segment list from `base` to `target`
(`upath.relative(base, target)` for two absolute paths). -/
def relSegsAux : List Seg → List Seg → List Seg
  | [], t => t
  | b, [] => b.map (fun _ => "..")
  | b0 :: bs, t0 :: ts =>
      if b0 = t0 then relSegsAux bs ts
      else ((b0 :: bs).map (fun _ => "..")) ++ (t0 :: ts)

/-- Embedding of `upath.relative` between two absolute segment lists. -/
def relSegs (base target : List Seg) : List Seg :=
  relSegsAux base target

/-- The three accepted manuscript media types (`manuscriptMediaTypes`). -/
def manuscriptMediaTypes : List String :=
  ["text/markdown", "text/html", "application/xhtml+xml"]

/-- Embedding of `isManuscriptMediaType` (false on a missing media type,
as the source checks the `false` return of `mime`). -/
def isManuscriptMediaType : Option String → Bool
  | some t => manuscriptMediaTypes.contains t
  | none => false

/-- The `ParsedTheme` sum type of the source: a resolved theme identity
(`uri`, `file` or `package` variant). -/
inductive ParsedTheme where
  | uri (name : String) (location : String)
  | file (name : String) (source : Path) (location : Path)
  | pkg (name : String) (specifier : String) (location : Path)
      (importPath : Option (List String))
deriving DecidableEq, Repr

/-- A theme reference of the configuration (`string | ThemeObject`):
the specifier string, classified by whether `isValidUri` accepts it,
plus the optional `import` sub-path. -/
inductive ThemeSpecifier where
  | uri (href : String)
  | plain (spec : String)
deriving DecidableEq, Repr

/-- The `ThemeObject` input shape (a bare string reference is the same
record without an import sub-path). -/
structure ThemeObject where
  specifier : ThemeSpecifier
  importPath : Option (List String) := none
deriving DecidableEq, Repr

/-- One file visible to the resolver, together with the metadata the
resolver would extract from it (`readMarkdownMetadata` front matter for
markdown, the first title tag for html). -/
structure FsFile where
  path : Path
  mdTitle : Option String := none
  vfmThemes : Option (List ThemeObject) := none
  htmlTitle : Option String := none

/-- The `name`/`author` fields of a `package.json` file. -/
structure PkgJson where
  name : Option String := none
  author : Option String := none

/-- Result of the external `parsePackageName` helper (npm-package-arg):
the parsed name, whether the specifier points at the npm registry, the
specifier type, and the fetch path for `directory` specifiers. -/
structure PkgParsed where
  name : Option String := none
  registry : Bool := true
  ptype : String := "range"
  fetchSpec : Option Path := none

/-- The ambient world: the filesystem, the working directory, the
external package-name parser, `package.json` contents by path, and the
clock used for the default temporary-file marker. -/
structure Env where
  cwd : Path := ⟨[]⟩
  files : List FsFile := []
  parsePkg : String → Option PkgParsed := fun _ => none
  pkgJson : Path → Option PkgJson := fun _ => none
  now : Nat := 0

/-- Existence check (`fs.existsSync` / `statFileSync` success). -/
def Env.exists (env : Env) (p : Path) : Bool :=
  env.files.any (·.path = p)

/-- File lookup for metadata reads. -/
def Env.lookup (env : Env) (p : Path) : Option FsFile :=
  env.files.find? (·.path = p)

instance {ε α : Type} [DecidableEq ε] [DecidableEq α] : DecidableEq (Except ε α) := fun x y =>
  match x, y with
  | .error a, .error b =>
      if h : a = b then .isTrue (by rw [h])
      else .isFalse (by intro hc; cases hc; exact h rfl)
  | .error _, .ok _ => .isFalse (by intro hc; cases hc)
  | .ok _, .error _ => .isFalse (by intro hc; cases hc)
  | .ok a, .ok b =>
      if h : a = b then .isTrue (by rw [h])
      else .isFalse (by intro hc; cases hc; exact h rfl)

/-- The typed configuration errors raised by the resolver. -/
inductive RErr where
  | missingFile (p : Path) (errorMessage : Option String)
  | invalidManuscriptType (contentType : Option String) (entryStr : String)
  | missingCoverImage
  | invalidPackageName (specifier : String)
  | disallowedSpecifier (specifier : String)
  | packageNameUndetermined (specifier : String)
  | cannotParseSize (s : String)
  | jsTypeError
deriving DecidableEq, Repr

/-- The user-visible message of each error, mirroring the throw sites of
the source (the `missingFile` default comes from the shared stat helper,
which is outside the resolver source; its exact wording is immaterial
here). -/
def RErr.message : RErr → String
  | .missingFile p msg =>
      (msg.getD "Specified input does not exist") ++ ": " ++ pathToString p
  | .invalidManuscriptType ct entryStr =>
      "Invalid manuscript type " ++ (ct.getD "false") ++ " detected: " ++ entryStr
  | .missingCoverImage =>
      "A CoverEntryObject is set in the entry list but a location of cover file is not set. Please set \x27cover\x27 property in your config file."
  | .invalidPackageName spec => "Invalid package name: " ++ spec
  | .disallowedSpecifier spec =>
      "This package specifier is not allowed: " ++ spec
  | .packageNameUndetermined spec =>
      "Could not determine the package name: " ++ spec
  | .cannotParseSize s => "Cannot parse size: " ++ s
  | .jsTypeError => "TypeError"

/-- A `ParsedTheme` record together with its allocation identity: two
structurally equal records created by different `parseTheme` calls are
distinct JavaScript objects, so they carry distinct ids. -/
structure ThemeRef where
  id : Nat
  theme : ParsedTheme
deriving DecidableEq, Repr

/-- The `{source, target}` alias registered by the collision check. -/
structure ExportAlias where
  source : Path
  target : Path
deriving DecidableEq, Repr

/-- The mutable context threaded through one resolution pass: the object
allocation counter, the theme index (a `Set` keyed by object identity),
the export alias list, the placeholder files touched, and the warnings
logged. -/
structure RState where
  nextId : Nat := 0
  themeIndexes : List ThemeRef := []
  exportAliases : List ExportAlias := []
  touched : List Path := []
  warnings : List String := []
deriving DecidableEq, Repr

/-- Allocate a fresh theme object. -/
def allocTheme (pt : ParsedTheme) (s : RState) : ThemeRef × RState :=
  (⟨s.nextId, pt⟩, { s with nextId := s.nextId + 1 })

/-- Embedding of `themeIndexes.add(t)`: a `Set` of objects adds a member
only when the same object (same identity) is not yet present. -/
def addTheme (s : RState) (t : ThemeRef) : RState :=
  if s.themeIndexes.any (·.id = t.id) then s
  else { s with themeIndexes := s.themeIndexes ++ [t] }

/-- The directory context handed to `parseTheme`. -/
structure ThemeCtx where
  context : Path
  workspaceDir : Path
  themesDir : Path

/-- Embedding of `parseTheme`: classify a theme reference as a stylesheet
URL, a local `.css` file, or an installable package specifier, following
the classification order of the source. -/
def parseTheme (tc : ThemeCtx) (env : Env) (t : ThemeObject) (s : RState) :
    Except RErr (ThemeRef × RState) :=
  match t.specifier with
  | .uri href => .ok (allocTheme (.uri (basenameStr href) href) s)
  | .plain spec =>
    let stylePath := resolveStr tc.context spec
    if env.exists stylePath && strEndsWith (pathToString stylePath) ".css" then
      .ok (allocTheme
        (.file (basenameStr spec) stylePath
          ⟨normSegs tc.workspaceDir.segs (relSegs tc.context.segs stylePath.segs)⟩) s)
    else
      match env.parsePkg spec with
      | none => .error (.invalidPackageName spec)
      | some parsed =>
        if ¬parsed.registry ∧ parsed.ptype ≠ "directory" then
          .error (.disallowedSpecifier spec)
        else
          let nameAndSpec : Option String × String :=
            match parsed.fetchSpec with
            | some fp =>
                if parsed.ptype = "directory" then
                  match env.pkgJson (joinSeg fp "package.json") with
                  | some pj => (pj.name, pathToString fp)
                  | none => (parsed.name, spec)
                else (parsed.name, spec)
            | none => (parsed.name, spec)
          match nameAndSpec.1 with
          | none => .error (.packageNameUndetermined spec)
          | some nm =>
              if nm = "" then .error (.packageNameUndetermined spec)
              else .ok (allocTheme
                (.pkg nm nameAndSpec.2
                  ⟨normSegs tc.themesDir.segs ["node_modules", nm]⟩
                  t.importPath) s)

/-- Map `parseTheme` over a reference list, propagating the first error
(the `.map` of a throwing callback in the source). -/
def parseThemeList (tc : ThemeCtx) (env : Env) (ts : List ThemeObject) (s : RState) :
    Except RErr (List ThemeRef × RState) :=
  match ts with
  | [] => .ok ([], s)
  | t :: rest =>
    match parseTheme tc env t s with
    | .error e => .error e
    | .ok (r, s1) =>
      match parseThemeList tc env rest s1 with
      | .error e => .error e
      | .ok (rs, s2) => .ok (r :: rs, s2)

/-- Output formats of the declared output list. -/
inductive OutputFormat where
  | pdf
  | epub
  | webpub
deriving DecidableEq, Repr

/-- One declared output target after schema parsing: a path, a format,
and the optional per-target pdf overrides carried by the object spread
(`none` models an absent property, which the spread leaves to the
defaults). -/
structure OutputTargetIn where
  path : PathSpec
  format : OutputFormat
  renderMode : Option String := none
  preflight : Option (Option String) := none
  preflightOption : Option (List String) := none
deriving DecidableEq, Repr

/-- The `OutputConfig` sum type of the source. -/
inductive OutputConfig where
  | pdf (path : Path) (renderMode : String) (preflight : Option String)
      (preflightOption : List String)
  | epub (path : Path) (version : String)
  | webpub (path : Path)
deriving DecidableEq, Repr

/-- The fixed supported EPUB version stamped on epub outputs
(`EPUB_OUTPUT_VERSION`; the source type also fixes it to this value). -/
def EPUB_OUTPUT_VERSION : String := "3.0"

/-- Path of a resolved output. -/
def OutputConfig.path : OutputConfig → Path
  | .pdf p _ _ _ => p
  | .epub p _ => p
  | .webpub p => p

/-- Format tag of a resolved output. -/
def OutputConfig.format : OutputConfig → OutputFormat
  | .pdf _ _ _ _ => .pdf
  | .epub _ _ => .epub
  | .webpub _ => .webpub

/-- The project-wide default preflight mode: `press-ready` only when the
`pressReady` flag is set. -/
def defaultPreflightOf (pressReady : Bool) : Option String :=
  if pressReady then some "press-ready" else none

/-- The default output filename when no outputs are declared:
`<title>.pdf` for a truthy title, `output.pdf` otherwise. -/
def defaultPdfFilename : Option String → String
  | some t => if t = "" then "output.pdf" else t ++ ".pdf"
  | none => "output.pdf"

/-- Resolve one declared output target: resolve its path against the
context directory, merge pdf targets over the per-format defaults, stamp
the fixed version on epub targets, and pass webpub targets through. -/
def resolveOneOutput (context : Path) (pressReady : Bool)
    (target : OutputTargetIn) : OutputConfig :=
  let outputPath := resolveSpec context target.path
  match target.format with
  | .pdf =>
      .pdf outputPath (target.renderMode.getD "local")
        (match target.preflight with
         | some pf => pf
         | none => defaultPreflightOf pressReady)
        (target.preflightOption.getD [])
  | .epub => .epub outputPath EPUB_OUTPUT_VERSION
  | .webpub => .webpub outputPath

/-- Embedding of the `outputs` block of `resolveTaskConfig`: resolve each
declared target, or synthesize the single default pdf output when the
`output` field is absent. -/
def resolveOutputs (context : Path) (pressReady : Bool) (title : Option String)
    (output : Option (List OutputTargetIn)) : List OutputConfig :=
  match output with
  | some targets => targets.map (resolveOneOutput context pressReady)
  | none =>
      [.pdf (resolveStr context (defaultPdfFilename title)) "local"
        (defaultPreflightOf pressReady) []]

/-- Reinject a resolved output as a declared target, for re-running the
normalizer on its own result. -/
def OutputConfig.toTargetIn : OutputConfig → OutputTargetIn
  | .pdf p rm pf po =>
      { path := .abs p.segs, format := .pdf, renderMode := some rm,
        preflight := some pf, preflightOption := some po }
  | .epub p _ => { path := .abs p.segs, format := .epub }
  | .webpub p => { path := .abs p.segs, format := .webpub }

/-- A parsed URL: scheme, host (with any port), path segments, and
whether the path part of the string ends in a slash (the source keeps
URLs as strings and re-parses them; dot segments are assumed already
normalized, as the WHATWG URL parser does). -/
structure Url where
  scheme : String
  host : String
  pathSegs : List Seg
  trailingSlash : Bool := false
deriving DecidableEq, Repr

/-- A raw entry path string, classified by the syntactic tests of
`getInputInfo`: an `http(s)` URL, a leading-slash path (routed to the
local preview server), or a relative filesystem path. -/
inductive RawPath where
  | http (u : Url)
  | root (segs : List Seg) (trailingSlash : Bool)
  | relp (segs : List Seg)
deriving DecidableEq, Repr

/-- Embedding of `upath.resolve(base, str)` on a raw entry path string:
a relative path resolves against the base, a leading-slash path is
normalized on its own, and a URL string is treated as an odd relative
path (its `//` collapses, which is what `upath` does to it). -/
def resolveRaw (base : Path) : RawPath → Path
  | .relp segs => ⟨normSegs base.segs segs⟩
  | .root segs _ => ⟨normSegs [] segs⟩
  | .http u => ⟨normSegs base.segs ((u.scheme ++ ":") :: u.host :: u.pathSegs)⟩

/-- One entry declaration after schema parsing (`EntryObject`): string
entries have already been normalized to `{path}` records by the config
loading layer, so every entry reaching `parseEntry` is an object.
Absent or empty-string fields are `none`. -/
structure EntryObject where
  rel : Option String := none
  path : Option RawPath := none
  output : Option RawPath := none
  theme : Option (List ThemeObject) := none
  title : Option String := none
  imageSrc : Option RawPath := none
  imageAlt : Option String := none
  pageBreakBefore : Option String := none
  pageCounterReset : Option Int := none
deriving DecidableEq, Repr

/-- Default JavaScript stringification of a plain entry object, as
interpolated into the invalid-manuscript-type error message by
`getInputInfo`. -/
def entryToString (_ : EntryObject) : String :=
  "[object Object]"

/-- The `EntrySource` sum type of the source. -/
inductive EntrySource where
  | file (pathname : Path) (contentType : String)
  | uri (href : Url) (rootDir : Path)
deriving DecidableEq, Repr

/-- Metadata extracted from a manuscript file: an implicit title and the
front-matter theme overrides (already resolved to theme records). -/
structure Metadata where
  title : Option String := none
  themes : Option (List ThemeRef) := none
deriving DecidableEq, Repr

/-- Result of `getInputInfo`: a file source with its detected content
type and extracted metadata, or a URI source with its mirror root. -/
inductive InputInfo where
  | file (pathname : Path) (contentType : String) (metadata : Metadata)
  | uri (href : Url) (rootDir : Path)
deriving DecidableEq, Repr

/-- Forget the metadata of an input info (the `{metadata, ...source}`
destructuring of the source). -/
def InputInfo.toSource : InputInfo → EntrySource
  | .file pn ct _ => .file pn ct
  | .uri u rd => .uri u rd

/-- The metadata of an input info, when it is a file source. -/
def InputInfo.meta : InputInfo → Option Metadata
  | .file _ _ md => some md
  | .uri _ _ => none

/-- Embedding of `parseFileMetadata`: for markdown, read the front
matter for a title and try theme overrides (only when a themes directory
was supplied); for html content, scan for the first title tag. -/
def parseFileMetadata (env : Env) (contentType : String) (sourcePath : Path)
    (workspaceDir : Path) (themesDir : Option Path) (s : RState) :
    Except RErr (Metadata × RState) :=
  let f := env.lookup sourcePath
  if contentType = "text/markdown" then
    match themesDir, f.bind (·.vfmThemes) with
    | some td, some specs =>
        match parseThemeList ⟨sourcePath.parent, workspaceDir, td⟩ env specs s with
        | .error e => .error e
        | .ok (ts, s1) => .ok ({ title := f.bind (·.mdTitle), themes := some ts }, s1)
    | _, _ => .ok ({ title := f.bind (·.mdTitle), themes := none }, s)
  else
    .ok ({ title := f.bind (·.htmlTitle), themes := none }, s)

/-- Constant from `const.js` (outside the resolver source): the
filename of the synthesized table-of-contents document. -/
def TOC_FILENAME : String := "index.html"

/-- Constant from `const.js` (outside the resolver source): the default
table-of-contents title. -/
def TOC_TITLE : String := "Table of Contents"

/-- Constant from `const.js` (outside the resolver source): the
filename of the synthesized cover document. -/
def COVER_HTML_FILENAME : String := "cover.html"

/-- Constant from `const.js` (outside the resolver source): the default
alt text of the cover image. -/
def COVER_HTML_IMAGE_ALT : String := "Cover image"

/-- Constant from `const.js` (outside the resolver source): the
filename of the publication manifest under the workspace directory. -/
def MANIFEST_FILENAME : String := "publication.json"

/-- The resolved table-of-contents defaults (`tocConfig`); the
list-transform hooks are functions and are not modelled. -/
structure TocCfg where
  tocTitle : String
  target : Path
  sectionDepth : Nat
deriving DecidableEq, Repr

/-- The resolved project-wide cover configuration (the `cover` constant
of `resolveTaskConfig`). -/
structure CoverCfg where
  src : Path
  name : String
  htmlPath : Option Path
deriving DecidableEq, Repr

/-- The context closed over by `parseEntry` inside
`composeProjectConfig`: directories, the temporary-file marker
(`temporaryFilePrefix` in the source), root themes, the local preview
origin host, toc defaults, the cover configuration and the project
title. -/
structure PCtx where
  context : Path
  entryContextDir : Path
  workspaceDir : Path
  themesDir : Path
  tmpPfx : String
  rootThemes : List ThemeRef
  localHost : String
  tocCfg : TocCfg
  cover : Option CoverCfg
  projectTitle : Option String

/-- Embedding of `getInputInfo`: classify the entry path, and for local
files require existence and an accepted manuscript media type (the
thrown message interpolates the entry object itself). -/
def getInputInfo (ctx : PCtx) (env : Env) (entryPath : RawPath)
    (entryStr : String) (s : RState) : Except RErr (InputInfo × RState) :=
  match entryPath with
  | .http u => .ok (.uri u (joinSeg ctx.workspaceDir u.host), s)
  | .root segs tr =>
      .ok (.uri ⟨"http", ctx.localHost, segs, tr⟩ (joinSeg ctx.workspaceDir ".local"), s)
  | .relp segs =>
      let pathname : Path := ⟨normSegs ctx.entryContextDir.segs segs⟩
      if env.exists pathname then
        match mime pathname with
        | some ct =>
            if manuscriptMediaTypes.contains ct then
              match parseFileMetadata env ct pathname ctx.workspaceDir
                  (some ctx.themesDir) s with
              | .error e => .error e
              | .ok (md, s1) => .ok (.file pathname ct md, s1)
            else .error (.invalidManuscriptType (some ct) entryStr)
        | none => .error (.invalidManuscriptType none entryStr)
      else .error (.missingFile pathname none)

/-- Apply a function to the last element of a list. -/
def listMapLast (f : String → String) : List String → List String
  | [] => []
  | [a] => [f a]
  | a :: b :: rest => a :: listMapLast f (b :: rest)

/-- Whether a segment ends in a document extension (`/\.html?$/`). -/
def endsHtmlExt (s : String) : Bool :=
  strEndsWith s ".html" || strEndsWith s ".htm"

/-- Embedding of `getTargetPath`: a file source maps into the workspace
directory with the manuscript extension rewritten; a URI source maps its
URL path under the mirror root, appending an index document name when
the path has no document extension. -/
def getTargetPath (ctx : PCtx) : EntrySource → Path
  | .file pathname _ =>
      ⟨normSegs ctx.workspaceDir.segs
        (listMapLast replaceMdHtml (relSegs ctx.entryContextDir.segs pathname.segs))⟩
  | .uri u rootDir =>
      let pathSegs :=
        if (¬u.trailingSlash) && endsHtmlExt ((u.pathSegs.getLast?).getD "") then
          u.pathSegs
        else u.pathSegs ++ ["index.html"]
      ⟨normSegs rootDir.segs pathSegs⟩

/-- The warning logged when a contents or cover `path` names a missing
file. -/
def pathFallbackWarning (source : Path) : String :=
  "The \x22path\x22 option is set but the file does not exist: " ++
    pathToString source ++
    "\nMaybe you want to set the \x22output\x22 field instead."

/-- Embedding of the backward-compatibility block of `parseEntry`: a
contents or cover entry whose `path` names a missing file is downgraded
to a warning and its `path` is reinterpreted as the `output` field. -/
def reinterpretEntry (ctx : PCtx) (env : Env) (entry : EntryObject) (s : RState) :
    EntryObject × RState :=
  match entry.path with
  | some p =>
      if entry.rel = some "contents" ∨ entry.rel = some "cover" then
        let source := resolveRaw ctx.entryContextDir p
        if env.exists source then (entry, s)
        else
          ({ entry with output := entry.path, path := none },
           { s with warnings := s.warnings ++ [pathFallbackWarning source] })
      else (entry, s)
  | none => (entry, s)

/-- Embedding of `ensureCoverImage`: resolve a declared cover image
source and require it to exist; an absent source resolves to nothing. -/
def ensureCoverImage (ctx : PCtx) (env : Env) (src : Option RawPath) :
    Except RErr (Option Path) :=
  match src with
  | none => .ok none
  | some sp =>
      let absPath := resolveRaw ctx.entryContextDir sp
      if env.exists absPath then .ok (some absPath)
      else .error (.missingFile absPath (some "Specified cover image does not exist"))

/-- The `ParsedEntry` sum type of the source (the contents transform
hooks are functions and are not modelled). -/
inductive ParsedEntry where
  | manuscript (contentType : String) (title : Option String)
      (themes : List ThemeRef) (source : EntrySource) (target : Path)
      (rel : Option String)
  | contents (title : Option String) (themes : List ThemeRef)
      (template : Option EntrySource) (target : Path)
      (tocTitle : String) (sectionDepth : Nat)
      (pageBreakBefore : Option String) (pageCounterReset : Option Int)
  | cover (title : Option String) (themes : List ThemeRef)
      (template : Option EntrySource) (target : Path)
      (coverImageSrc : Path) (coverImageAlt : String)
      (pageBreakBefore : Option String)
deriving DecidableEq, Repr

/-- Target path of a parsed entry. -/
def ParsedEntry.target : ParsedEntry → Path
  | .manuscript _ _ _ _ t _ => t
  | .contents _ _ _ t _ _ _ _ => t
  | .cover _ _ _ t _ _ _ => t

/-- Theme list of a parsed entry. -/
def ParsedEntry.themes : ParsedEntry → List ThemeRef
  | .manuscript _ _ ts _ _ _ => ts
  | .contents _ ts _ _ _ _ _ _ => ts
  | .cover _ ts _ _ _ _ _ => ts

/-- The `rel` discriminator of a parsed entry, as read by the
`entries.find` calls of the composer. -/
def ParsedEntry.relOf : ParsedEntry → Option String
  | .manuscript _ _ _ _ _ r => r
  | .contents _ _ _ _ _ _ _ _ => some "contents"
  | .cover _ _ _ _ _ _ _ => some "cover"

/-- Title of a parsed entry. -/
def ParsedEntry.titleOf : ParsedEntry → Option String
  | .manuscript _ t _ _ _ _ => t
  | .contents t _ _ _ _ _ _ _ => t
  | .cover t _ _ _ _ _ _ => t

/-- The detected content type carried by a parsed entry: present exactly
on manuscript entries. -/
def ParsedEntry.contentTypeOf : ParsedEntry → Option String
  | .manuscript ct _ _ _ _ _ => some ct
  | .contents _ _ _ _ _ _ _ _ => none
  | .cover _ _ _ _ _ _ _ => none

/-- Whether a parsed entry is the cover kind. -/
def ParsedEntry.isCoverKind : ParsedEntry → Bool
  | .cover _ _ _ _ _ _ _ => true
  | _ => false

/-- The template source of a contents or cover entry. -/
def ParsedEntry.templateOf : ParsedEntry → Option EntrySource
  | .manuscript _ _ _ _ _ _ => none
  | .contents _ _ t _ _ _ _ _ => t
  | .cover _ _ t _ _ _ _ => t

/-- The optional-chained metadata themes (`metadata?.themes`). -/
def metaThemes (md : Option Metadata) : Option (List ThemeRef) :=
  md.bind (·.themes)

/-- The theme list of an entry: the explicit override when declared,
else the extracted metadata themes, else the given default (the shared
`entry.theme ? ... : metadata?.themes ?? fallback` expression of all
three branches). -/
def entryThemes (ctx : PCtx) (env : Env) (entry : EntryObject)
    (metadata : Option Metadata) (fallback : List ThemeRef) (s : RState) :
    Except RErr (List ThemeRef × RState) :=
  match entry.theme with
  | some ts => parseThemeList ⟨ctx.context, ctx.workspaceDir, ctx.themesDir⟩ env ts s
  | none => .ok ((metaThemes metadata).getD fallback, s)

/-- The temporary sibling path substituted by the collision check:
`upath.resolve(upath.dirname(target), tmpPfx + upath.basename(target))`. -/
def tmpSibling (ctx : PCtx) (target : Path) : Path :=
  ⟨normSegs target.segs.dropLast [ctx.tmpPfx ++ target.lastSeg]⟩

/-- The collision check shared by the contents and cover branches: when
the entry has a file source whose path equals the computed target,
substitute a uniquely prefixed temporary sibling, register the export
alias, and touch the placeholder. -/
def collisionCheck (ctx : PCtx) (inputInfo : Option InputInfo) (target : Path)
    (s : RState) : Path × RState :=
  match inputInfo with
  | some (.file pn _ _) =>
      if pn = target then
        let tmpPath : Path := tmpSibling ctx target
        (tmpPath,
         { s with exportAliases := s.exportAliases ++ [⟨tmpPath, target⟩],
                  touched := s.touched ++ [tmpPath] })
      else (target, s)
  | _ => (target, s)

/-- The optional input info of a contents or cover entry
(`entry.path ? getInputInfo(entry.path) : undefined`). -/
def getOptInputInfo (ctx : PCtx) (env : Env) (entry : EntryObject) (s : RState) :
    Except RErr (Option InputInfo × RState) :=
  match entry.path with
  | some p =>
      match getInputInfo ctx env p (entryToString entry) s with
      | .error e => .error e
      | .ok (i, s1) => .ok (some i, s1)
  | none => .ok (none, s)

/-- The contents branch of `parseEntry`. -/
def parseContentsEntry (ctx : PCtx) (env : Env) (entry : EntryObject) (s : RState) :
    Except RErr (ParsedEntry × RState) :=
  match getOptInputInfo ctx env entry s with
  | .error e => .error e
  | .ok (inputInfo, s1) =>
    let template := inputInfo.map InputInfo.toSource
    let metadata := inputInfo.bind InputInfo.meta
    let target0 : Option Path :=
      match entry.output with
      | some o => some (resolveRaw ctx.workspaceDir o)
      | none => inputInfo.map (fun i => getTargetPath ctx i.toSource)
    match entryThemes ctx env entry metadata ctx.rootThemes s1 with
    | .error e => .error e
    | .ok (themes, s2) =>
      let s3 := themes.foldl addTheme s2
      let target1 := target0.getD ctx.tocCfg.target
      let colRes := collisionCheck ctx inputInfo target1 s3
      .ok (.contents (entry.title <|> metadata.bind (·.title) <|> ctx.projectTitle)
            themes template colRes.1 ctx.tocCfg.tocTitle ctx.tocCfg.sectionDepth
            entry.pageBreakBefore entry.pageCounterReset, colRes.2)

/-- The cover branch of `parseEntry`. -/
def parseCoverEntry (ctx : PCtx) (env : Env) (entry : EntryObject) (s : RState) :
    Except RErr (ParsedEntry × RState) :=
  match getOptInputInfo ctx env entry s with
  | .error e => .error e
  | .ok (inputInfo, s1) =>
    let template := inputInfo.map InputInfo.toSource
    let metadata := inputInfo.bind InputInfo.meta
    let target0 : Option Path :=
      match entry.output with
      | some o => some (resolveRaw ctx.workspaceDir o)
      | none => inputInfo.map (fun i => getTargetPath ctx i.toSource)
    match entryThemes ctx env entry metadata [] s1 with
    | .error e => .error e
    | .ok (themes, s2) =>
      let s3 := themes.foldl addTheme s2
      match ensureCoverImage ctx env
          (entry.imageSrc <|> ctx.cover.map (fun c => RawPath.root c.src.segs false)) with
      | .error e => .error e
      | .ok none => .error .missingCoverImage
      | .ok (some coverImageSrc) =>
        let fallbackSpec : RawPath :=
          match entry.path with
          | some p => p
          | none =>
              match ctx.cover.bind (·.htmlPath) with
              | some h => .root h.segs false
              | none => .relp [COVER_HTML_FILENAME]
        let target1 := target0.getD (resolveRaw ctx.workspaceDir fallbackSpec)
        let colRes := collisionCheck ctx inputInfo target1 s3
        .ok (.cover (entry.title <|> metadata.bind (·.title) <|> ctx.projectTitle)
              themes template colRes.1 coverImageSrc
              ((entry.imageAlt <|> ctx.cover.map (·.name)).getD COVER_HTML_IMAGE_ALT)
              entry.pageBreakBefore, colRes.2)

/-- The manuscript (article) branch of `parseEntry`.  The schema layer
guarantees a `path`; an absent one would crash the string tests of
`getInputInfo`, modelled by the runtime type error. -/
def parseArticleEntry (ctx : PCtx) (env : Env) (entry : EntryObject) (s : RState) :
    Except RErr (ParsedEntry × RState) :=
  match entry.path with
  | none => .error .jsTypeError
  | some p =>
    match getInputInfo ctx env p (entryToString entry) s with
    | .error e => .error e
    | .ok (inputInfo, s1) =>
      let source := inputInfo.toSource
      let metadata := inputInfo.meta
      let target :=
        match entry.output with
        | some o => resolveRaw ctx.workspaceDir o
        | none => getTargetPath ctx source
      match entryThemes ctx env entry metadata ctx.rootThemes s1 with
      | .error e => .error e
      | .ok (themes, s2) =>
        let s3 := themes.foldl addTheme s2
        .ok (.manuscript
              (match source with
               | .file _ ct => ct
               | .uri _ _ => "text/html")
              (entry.title <|> metadata.bind (·.title) <|> ctx.projectTitle)
              themes source target entry.rel, s3)

/-- Embedding of `parseEntry`: the backward-compatibility path fixup,
then dispatch on the declared role. -/
def parseEntry (ctx : PCtx) (env : Env) (entry : EntryObject) (s : RState) :
    Except RErr (ParsedEntry × RState) :=
  let es := reinterpretEntry ctx env entry s
  if es.1.rel = some "contents" then parseContentsEntry ctx env es.1 es.2
  else if es.1.rel = some "cover" then parseCoverEntry ctx env es.1 es.2
  else parseArticleEntry ctx env es.1 es.2

/-- Map `parseEntry` over the declared entry list, propagating the first
error (`config.entry.map(parseEntry)`). -/
def parseEntryList (ctx : PCtx) (env : Env) (es : List EntryObject) (s : RState) :
    Except RErr (List ParsedEntry × RState) :=
  match es with
  | [] => .ok ([], s)
  | e :: rest =>
    match parseEntry ctx env e s with
    | .error err => .error err
    | .ok (pe, s1) =>
      match parseEntryList ctx env rest s1 with
      | .error err => .error err
      | .ok (pes, s2) => .ok (pe :: pes, s2)

/-- The viewer-input descriptor (`ViewerInputConfig`). -/
inductive ViewerInput where
  | webpub (manifestPath : PathSpec) (needToGenerateManifest : Bool)
  | webbook (webbookEntryUrl : Url)
  | epubOpf (epubOpfPath : PathSpec)
  | epub (epubPath : PathSpec) (epubTmpOutputDir : PathSpec)
deriving DecidableEq, Repr

/-- The input formats of single-input mode. -/
inductive InputFormat where
  | markdown
  | webbook
  | pubManifest
  | epubOpf
  | epub
deriving DecidableEq, Repr

/-- The single CLI input: a string accepted by the URI validity test, or
a filesystem path string. -/
inductive InputEntry where
  | uriStr (u : Url)
  | pathSpec (p : PathSpec)
deriving DecidableEq, Repr

/-- A page size, parsed from the `size` option. -/
inductive PageSize where
  | wh (width height : String)
  | fmt (format : String)
deriving DecidableEq, Repr

/-- Embedding of `parsePageSize` (comma-separated custom size or a named
format; empty or over-long splits are rejected). -/
def parsePageSize (s : String) : Except RErr PageSize :=
  match splitOnStrChar ',' s with
  | [w] => if w = "" then .error (.cannotParseSize s) else .ok (.fmt w)
  | [w, h] =>
      if w = "" then .error (.cannotParseSize s)
      else if h = "" then .ok (.fmt w)
      else .ok (.wh w h)
  | _ => .error (.cannotParseSize s)

/-- A `server.host` value: `false`, `true`, or a host string. -/
inductive HostVal where
  | bool (b : Bool)
  | str (s : String)
deriving DecidableEq, Repr

/-- The preview host name derived from `server.host` (`localhost` for a
falsy value, the wildcard for `true`). -/
def hostOf : HostVal → String
  | .bool false => "localhost"
  | .bool true => "0.0.0.0"
  | .str s => if s = "" then "localhost" else s

/-- Truthiness of an optional string (empty strings are falsy). -/
def truthyStr : Option String → Option String
  | some "" => none
  | x => x

/-- The `toc` field of the configuration: `true`, a bare string, or an
object carrying the toc options. -/
inductive TocVal where
  | flagTrue
  | str (s : String)
  | obj (title : Option String) (htmlPath : Option PathSpec)
      (sectionDepth : Option Nat)
deriving DecidableEq, Repr

/-- Truthiness of the declared `toc` value. -/
def tocTruthy : Option TocVal → Bool
  | none => false
  | some .flagTrue => true
  | some (.str s) => s ≠ ""
  | some (.obj _ _ _) => true

/-- The `title` sub-field of a `toc` object (`config.toc?.title`). -/
def TocVal.objTitle : TocVal → Option String
  | .obj t _ _ => t
  | _ => none

/-- The `htmlPath` sub-field of a `toc` object. -/
def TocVal.objHtmlPath : TocVal → Option PathSpec
  | .obj _ h _ => h
  | _ => none

/-- The `sectionDepth` sub-field of a `toc` object. -/
def TocVal.objSectionDepth : TocVal → Option Nat
  | .obj _ _ d => d
  | _ => none

/-- The declared `cover.htmlPath`: absent, present but falsy, or a
path. -/
inductive CoverHtmlPathIn where
  | absent
  | declaredFalsy
  | declared (p : PathSpec)
deriving DecidableEq, Repr

/-- The declared project-wide `cover` object. -/
structure CoverIn where
  src : PathSpec
  name : Option String := none
  htmlPath : CoverHtmlPathIn := .absent
deriving DecidableEq, Repr

/-- The claim-relevant fields of a parsed build task
(`ParsedBuildTask`); per-run scalar options that the resolver merely
copies through (crop marks, css, browser, proxy, timeout, ...) are
omitted. -/
structure BuildTask where
  title : Option String := none
  author : Option String := none
  theme : Option (List ThemeObject) := none
  entry : List EntryObject := []
  output : Option (List OutputTargetIn) := none
  workspaceDir : Option PathSpec := none
  entryContext : Option PathSpec := none
  toc : Option TocVal := none
  tocTitle : Option String := none
  cover : Option CoverIn := none
  pressReady : Bool := false
  tmpPfxCfg : Option String := none
  size : Option String := none
  serverHost : Option HostVal := none
  serverPort : Option Nat := none

/-- The claim-relevant inline options: the working directory, whether a
config file is in play, and the single input. -/
structure InlineOpts where
  cwd : Option Path := none
  configPath : Bool := false
  input : Option (InputFormat × InputEntry) := none

/-- The claim-relevant fields of the terminal `ResolvedTaskConfig`
artifact; pass-through scalar options are omitted. -/
structure ResolvedTaskConfig where
  context : Path
  entryContextDir : Path
  workspaceDir : Path
  themesDir : Path
  tmpPfx : String
  entries : List ParsedEntry
  inputFormat : InputFormat
  inputEntry : PathSpec
  viewerInput : ViewerInput
  outputs : List OutputConfig
  themeIndexes : List ThemeRef
  rootThemes : List ThemeRef
  exportAliases : List ExportAlias
  title : Option String
  author : Option String
  cover : Option CoverCfg
  size : Option PageSize
deriving DecidableEq, Repr

/-- The common options shared by the two composer variants
(`CommonOpts`, restricted to the fields the composers read). -/
structure CCtx where
  context : Path
  entryContextDir : Path
  workspaceDir : Path
  themesDir : Path
  tmpPfx : String
  rootThemes : List ThemeRef
  outputs : List OutputConfig
  cover : Option CoverCfg
  serverHost : HostVal
  serverPort : Nat
  size : Option PageSize

/-- Basename of a path spec string (`upath.basename` on the raw
string). -/
def specBasename : PathSpec → String
  | .abs segs => (segs.getLast?).getD ""
  | .relp segs => (segs.getLast?).getD ""

/-- Dirname of a path spec string (`upath.dirname` on the raw string;
the dirname of a bare filename is `.`, which resolves back to the
working directory). -/
def specDirname : PathSpec → PathSpec
  | .abs segs => .abs segs.dropLast
  | .relp segs => .relp segs.dropLast

/-- Embedding of `composeSingleInputConfig`.  Note the source resolves
and stat-checks the input against the entry context precisely when the
URI validity test accepts it, and keeps a plain file path verbatim
(possibly relative; readers then resolve it against the process working
directory). -/
def composeSingleInputConfig (c : CCtx) (cfg : BuildTask) (env : Env)
    (inputFormat : InputFormat) (inputEntry : InputEntry) (s : RState) :
    Except RErr (ResolvedTaskConfig × RState) :=
  match (match inputEntry with
         | .pathSpec p => Except.ok p
         | .uriStr u =>
             let sp : Path :=
               ⟨normSegs c.entryContextDir.segs ((u.scheme ++ ":") :: u.host :: u.pathSegs)⟩
             if env.exists sp then Except.ok (PathSpec.abs sp.segs)
             else Except.error (RErr.missingFile sp none)) with
  | .error e => .error e
  | .ok sourcePath =>
    let mkResult (entries : List ParsedEntry) (viewerInput : ViewerInput)
        (fallbackTitle : Option String) (sFinal : RState) :
        ResolvedTaskConfig × RState :=
      ({ context := c.context, entryContextDir := c.entryContextDir,
         workspaceDir := c.workspaceDir, themesDir := c.themesDir,
         tmpPfx := c.tmpPfx, entries := entries, inputFormat := inputFormat,
         inputEntry := sourcePath, viewerInput := viewerInput,
         outputs := c.outputs, themeIndexes := sFinal.themeIndexes,
         rootThemes := c.rootThemes, exportAliases := sFinal.exportAliases,
         title := (truthyStr cfg.title) <|> fallbackTitle,
         author := cfg.author, cover := c.cover, size := c.size }, sFinal)
    match inputFormat with
    | .markdown =>
        let contentType := "text/markdown"
        match parseFileMetadata env contentType (resolveSpec env.cwd sourcePath)
            c.workspaceDir none s with
        | .error e => .error e
        | .ok (metadata, s1) =>
          let relDir :=
            relSegs c.entryContextDir.segs
              (resolveSpec env.cwd (specDirname sourcePath)).segs
          let target : Path :=
            Path.mdToHtml
              ⟨normSegs (normSegs c.workspaceDir.segs relDir)
                (strToRelSegs (c.tmpPfx ++ specBasename sourcePath))⟩
          let s2 := { s1 with touched := s1.touched ++ [target] }
          let themes := (metadata.themes).getD c.rootThemes
          let s3 := themes.foldl addTheme s2
          let entry : ParsedEntry :=
            .manuscript contentType metadata.title themes
              (.file (resolveSpec env.cwd sourcePath) contentType) target none
          let aliasTarget : Path :=
            ⟨normSegs target.segs.dropLast
              (strToRelSegs (replaceMdHtml (specBasename sourcePath)))⟩
          let s4 := { s3 with exportAliases := s3.exportAliases ++ [ExportAlias.mk target aliasTarget] }
          let manifestPath : Path :=
            ⟨normSegs c.workspaceDir.segs (strToRelSegs (c.tmpPfx ++ MANIFEST_FILENAME))⟩
          let s5 := { s4 with touched := s4.touched ++ [manifestPath] }
          let s6 := { s5 with exportAliases := s5.exportAliases ++
                        [ExportAlias.mk manifestPath (resolveStr c.workspaceDir MANIFEST_FILENAME)] }
          let fallbackTitle :=
            (truthyStr entry.titleOf) <|> some (specBasename sourcePath)
          .ok (mkResult [entry] (.webpub (.abs manifestPath.segs) true) fallbackTitle s6)
    | .webbook =>
        let url : Url := ⟨"file", "", (resolveSpec env.cwd sourcePath).segs, false⟩
        let url2 :=
          if (url.scheme = "http" ∨ url.scheme = "https") ∧ (¬url.trailingSlash) ∧
              ¬(endsHtmlExt ((url.pathSegs.getLast?).getD "")) then
            { url with trailingSlash := true }
          else url
        .ok (mkResult [] (.webbook url2) none s)
    | .pubManifest => .ok (mkResult [] (.webpub sourcePath false) none s)
    | .epubOpf => .ok (mkResult [] (.epubOpf sourcePath) none s)
    | .epub =>
        let tmpDir : PathSpec :=
          match sourcePath with
          | .abs segs =>
              .abs (normSegs segs (".." :: strToRelSegs (c.tmpPfx ++ specBasename sourcePath)))
          | .relp segs =>
              .relp (normSegs segs (".." :: strToRelSegs (c.tmpPfx ++ specBasename sourcePath)))
        .ok (mkResult [] (.epub sourcePath tmpDir) none s)

/-- The resolved table-of-contents defaults of project mode
(`tocConfig`). -/
def projectTocCfg (c : CCtx) (cfg : BuildTask) : TocCfg :=
  { tocTitle := ((cfg.toc.bind TocVal.objTitle) <|> cfg.tocTitle).getD TOC_TITLE,
    target :=
      match cfg.toc.bind TocVal.objHtmlPath with
      | some hp => resolveSpec c.workspaceDir hp
      | none => resolveStr c.workspaceDir TOC_FILENAME,
    sectionDepth := ((cfg.toc.bind TocVal.objSectionDepth)).getD 0 }

/-- The project title: the configured title, with the `package.json`
name as fallback. -/
def projectTitleOf (c : CCtx) (cfg : BuildTask) (env : Env) : Option String :=
  cfg.title <|> (env.pkgJson (joinSeg c.entryContextDir "package.json")).bind (·.name)

/-- The entry-resolution context built by `composeProjectConfig` and
closed over by its `parseEntry`. -/
def projectPCtx (c : CCtx) (cfg : BuildTask) (env : Env) : PCtx :=
  { context := c.context, entryContextDir := c.entryContextDir,
    workspaceDir := c.workspaceDir, themesDir := c.themesDir,
    tmpPfx := c.tmpPfx, rootThemes := c.rootThemes,
    localHost := hostOf c.serverHost ++ ":" ++ toString c.serverPort,
    tocCfg := projectTocCfg c cfg, cover := c.cover,
    projectTitle := projectTitleOf c cfg env }

/-- Embedding of `composeProjectConfig`: resolve all entries in
declaration order, compute the fallback project title, and prepend the
synthesized contents and cover entries when configured but absent. -/
def composeProjectConfig (c : CCtx) (cfg : BuildTask) (env : Env) (s : RState) :
    Except RErr (ResolvedTaskConfig × RState) :=
  let pkgJson := env.pkgJson (joinSeg c.entryContextDir "package.json")
  let tocCfg : TocCfg := projectTocCfg c cfg
  let projectTitle := projectTitleOf c cfg env
  let projectAuthor := cfg.author <|> pkgJson.bind (·.author)
  let pctx : PCtx := projectPCtx c cfg env
  match parseEntryList pctx env cfg.entry s with
  | .error e => .error e
  | .ok (entries0, s1) =>
    let singleEntryTitle : Option String :=
      match entries0 with
      | [e] => truthyStr e.titleOf
      | _ => none
    match (if (truthyStr projectTitle).isSome then Except.ok (none : Option String)
           else match singleEntryTitle with
                | some t => Except.ok (some t)
                | none =>
                    match c.outputs with
                    | [] => Except.error RErr.jsTypeError
                    | o :: _ => Except.ok (some o.path.lastSeg)) with
    | .error e => .error e
    | .ok fallbackProjectTitle =>
      let entries1 :=
        if tocTruthy cfg.toc &&
            ¬(entries0.any (fun e => e.relOf = some "contents")) then
          (ParsedEntry.contents none c.rootThemes none tocCfg.target
            tocCfg.tocTitle tocCfg.sectionDepth none none) :: entries0
        else entries0
      match (match c.cover with
             | some cov =>
                 match cov.htmlPath with
                 | some hp =>
                     if entries1.any (fun e => e.relOf = some "cover") then
                       Except.ok entries1
                     else
                       match ensureCoverImage pctx env (some (.root cov.src.segs false)) with
                       | .error e => Except.error e
                       | .ok none => Except.error RErr.jsTypeError
                       | .ok (some cis) =>
                           Except.ok ((ParsedEntry.cover projectTitle [] none hp
                             cis cov.name none) :: entries1)
                 | none => Except.ok entries1
             | none => Except.ok entries1) with
      | .error e => .error e
      | .ok entries2 =>
        .ok ({ context := c.context, entryContextDir := c.entryContextDir,
               workspaceDir := c.workspaceDir, themesDir := c.themesDir,
               tmpPfx := c.tmpPfx, entries := entries2,
               inputFormat := .pubManifest,
               inputEntry := .abs (joinSeg c.workspaceDir MANIFEST_FILENAME).segs,
               viewerInput := .webpub (.abs (joinSeg c.workspaceDir MANIFEST_FILENAME).segs) true,
               outputs := c.outputs, themeIndexes := s1.themeIndexes,
               rootThemes := c.rootThemes, exportAliases := s1.exportAliases,
               title := (truthyStr projectTitle) <|> fallbackProjectTitle,
               author := projectAuthor, cover := c.cover, size := c.size }, s1)

/-- Embedding of `resolveTaskConfig`: compute the context directories
and shared options, resolve root themes and outputs, and dispatch to the
single-input or project composer. -/
def resolveTaskConfig (cfg : BuildTask) (opts : InlineOpts) (env : Env) :
    Except RErr (ResolvedTaskConfig × RState) :=
  let context := opts.cwd.getD env.cwd
  let entryContextDir :=
    match cfg.entryContext with
    | some p => resolveSpec context p
    | none => context
  let workspaceDir :=
    match cfg.workspaceDir with
    | some p => resolveSpec context p
    | none => resolveStr context ".vivliostyle"
  let themesDir := resolveStr workspaceDir "themes"
  let tmpPfx := cfg.tmpPfxCfg.getD (".vs-" ++ toString env.now ++ ".")
  match (match cfg.size with
         | some sz =>
             match parsePageSize sz with
             | .error e => Except.error e
             | .ok ps => Except.ok (some ps)
         | none => Except.ok (none : Option PageSize)) with
  | .error e => .error e
  | .ok size =>
    let s0 : RState := {}
    match (match cfg.theme with
           | some ts => parseThemeList ⟨context, workspaceDir, themesDir⟩ env ts s0
           | none => Except.ok ([], s0)) with
    | .error e => .error e
    | .ok (rootThemes, s1) =>
      let s2 := rootThemes.foldl addTheme s1
      let outputs := resolveOutputs context cfg.pressReady cfg.title cfg.output
      let cover : Option CoverCfg :=
        cfg.cover.map fun ci =>
          { src := resolveSpec entryContextDir ci.src,
            name := (truthyStr ci.name).getD COVER_HTML_IMAGE_ALT,
            htmlPath :=
              match ci.htmlPath with
              | .declaredFalsy => none
              | .absent => some (resolveStr workspaceDir COVER_HTML_FILENAME)
              | .declared p => some (resolveSpec workspaceDir p) }
      let c : CCtx :=
        { context := context, entryContextDir := entryContextDir,
          workspaceDir := workspaceDir, themesDir := themesDir,
          tmpPfx := tmpPfx, rootThemes := rootThemes, outputs := outputs,
          cover := cover, serverHost := cfg.serverHost.getD (.bool false),
          serverPort := cfg.serverPort.getD 13000, size := size }
      match opts.configPath, opts.input with
      | false, some fe => composeSingleInputConfig c cfg env fe.1 fe.2 s2
      | _, _ => composeProjectConfig c cfg env s2

/-- The front-matter theme declarations visible at a path. -/
def mdThemesAt (env : Env) (p : Path) : Option (List ThemeObject) :=
  (env.lookup p).bind (·.vfmThemes)

/-- Hypothesis shape used below: when the entry names a local file, that
file carries no front-matter theme declaration. -/
def noMetaThemes (ctx : PCtx) (env : Env) (entry : EntryObject) : Prop :=
  ∀ segs, entry.path = some (RawPath.relp segs) →
    mdThemesAt env ⟨normSegs ctx.entryContextDir.segs segs⟩ = none

/-!
Concrete scenario data used by witnesses and counterexamples.
-/

/-- A project at `/proj` holding a stylesheet, a markdown manuscript, an
html manuscript, and a png image. -/
def sampleEnv : Env :=
  { cwd := ⟨["proj"]⟩,
    files :=
      [ { path := ⟨["proj", "theme.css"]⟩ },
        { path := ⟨["proj", "a.md"]⟩ },
        { path := ⟨["proj", "a.html"]⟩ },
        { path := ⟨["proj", "sample.md"]⟩ },
        { path := ⟨["proj", "image.png"]⟩ } ] }

/-- An entry-resolution context whose workspace directory coincides with
the entry context directory (so computed file targets can collide with
their sources). -/
def flatPCtx : PCtx :=
  { context := ⟨["proj"]⟩, entryContextDir := ⟨["proj"]⟩,
    workspaceDir := ⟨["proj"]⟩, themesDir := ⟨["proj", "themes"]⟩,
    tmpPfx := ".vs-100.", rootThemes := [], localHost := "localhost:13000",
    tocCfg := { tocTitle := TOC_TITLE, target := ⟨["proj", "index.html"]⟩,
                sectionDepth := 0 },
    cover := none, projectTitle := none }

/-- A standard project context with the default workspace directory. -/
def stdPCtx : PCtx :=
  { context := ⟨["proj"]⟩, entryContextDir := ⟨["proj"]⟩,
    workspaceDir := ⟨["proj", ".vivliostyle"]⟩,
    themesDir := ⟨["proj", ".vivliostyle", "themes"]⟩,
    tmpPfx := ".vs-100.", rootThemes := [], localHost := "localhost:13000",
    tocCfg := { tocTitle := TOC_TITLE,
                target := ⟨["proj", ".vivliostyle", "index.html"]⟩,
                sectionDepth := 0 },
    cover := none, projectTitle := none }

/-- A build task resolving the same stylesheet reference twice: once as
the root theme and once as an entry-level override. -/
def themeDupTask : BuildTask :=
  { theme := some [{ specifier := .plain "./theme.css" }],
    entry := [{ path := some (.relp ["a.md"]),
                theme := some [{ specifier := .plain "./theme.css" }] }] }

/-- The theme index produced by the duplicate-reference task, projected
to lengths, records and identities. -/
def themeDupResult : Option (Nat × List ParsedTheme × List Nat) :=
  match resolveTaskConfig themeDupTask {} sampleEnv with
  | .ok (r, _) =>
      some (r.themeIndexes.length,
        r.themeIndexes.map (fun t => t.theme),
        r.themeIndexes.map (fun t => t.id))
  | .error _ => none

/-- Single-input scenario: `sample.md` under `/proj`, no project file. -/
def singleMdTask : BuildTask := { tmpPfxCfg := some ".vs-100." }

/-- The inline options of the single-input scenario. -/
def singleMdOpts : InlineOpts :=
  { input := some (.markdown, .pathSpec (.relp ["sample.md"])) }

/-- Projection of the single-input scenario result: the viewer input,
the entry targets, and the export aliases. -/
def singleMdResult : Option (ViewerInput × List Path × List ExportAlias) :=
  match resolveTaskConfig singleMdTask singleMdOpts sampleEnv with
  | .ok (r, _) => some (r.viewerInput, r.entries.map ParsedEntry.target, r.exportAliases)
  | .error _ => none

/-- The failing input of claim C6: an entry whose path names an existing
png image. -/
def pngEntry : EntryObject := { path := some (.relp ["image.png"]) }

/-- A one-record theme index state, used to witness identity-keyed
deduplication. -/
def wIdxState : RState :=
  { nextId := 1,
    themeIndexes := [⟨0, .uri "example.com" "https://example.com"⟩] }

/-- The record already present in `wIdxState`. -/
def wIdxRef : ThemeRef := ⟨0, .uri "example.com" "https://example.com"⟩


/-- A remote manuscript URL used to witness the URI content-type rule. -/
def uriUrl : Url := { scheme := "https", host := "example.com", pathSegs := ["x"] }

/-- A project-mode manuscript entry sourced from `uriUrl`. -/
def uriEntry : EntryObject := { path := some (.http uriUrl) }

/-- The parsed entry produced for `uriEntry` under `stdPCtx`. -/
def uriParsed : ParsedEntry :=
  .manuscript "text/html" none []
    (.uri uriUrl ⟨["proj", ".vivliostyle", "example.com"]⟩)
    ⟨["proj", ".vivliostyle", "example.com", "x", "index.html"]⟩ none

/-- A standard project context carrying one root theme. -/
def rootedPCtx : PCtx :=
  { stdPCtx with
    rootThemes := [⟨0, .file "theme.css" ⟨["proj", "theme.css"]⟩
      ⟨["proj", ".vivliostyle", "themes", "theme.css"]⟩⟩] }

/-- A plain manuscript entry naming the markdown file `a.md`. -/
def c4Entry : EntryObject := { path := some (.relp ["a.md"]) }

/-- The parsed entry produced for `c4Entry` under `rootedPCtx`: it
inherits the root theme set. -/
def c4Parsed : ParsedEntry :=
  .manuscript "text/markdown" none rootedPCtx.rootThemes
    (.file ⟨["proj", "a.md"]⟩ "text/markdown")
    ⟨["proj", ".vivliostyle", "a.html"]⟩ none

/-- The state after resolving `c4Entry`: the root theme folded into the
theme index. -/
def c4S2 : RState := { themeIndexes := rootedPCtx.rootThemes }

/-- A cover entry declaring neither an image source nor a path, in a
project declaring no cover. -/
def coverNoImgEntry : EntryObject := { rel := some "cover" }

/-- A contents entry whose declared `path` names a missing file. -/
def missEntry : EntryObject :=
  { rel := some "contents", path := some (.relp ["missing.md"]) }

/-- A contents entry whose computed target collides with its source
under the flat workspace context. -/
def colEntry : EntryObject :=
  { rel := some "contents", path := some (.relp ["a.html"]) }

/-!
Theorems.  Each claim of the specification is settled by exactly one
named theorem below (plus, for claims with hypotheses, a witness
instantiating it on concrete data).
-/

theorem resolveSpec_clean {base : Path} (h : CleanSegs base.segs) :
    ∀ ps : PathSpec, CleanSegs (resolveSpec base ps).segs
  | .abs segs => cleanSegs_normSegs cleanSegs_nil segs
  | .relp segs => cleanSegs_normSegs h segs

theorem resolveOneOutput_roundtrip {context : Path} (h : CleanSegs context.segs)
    (pr : Bool) (t : OutputTargetIn) :
    resolveOneOutput context pr ((resolveOneOutput context pr t).toTargetIn) =
      resolveOneOutput context pr t := by
  cases t with
  | mk path format renderMode preflight preflightOption =>
    have hp : CleanSegs (resolveSpec context path).segs := resolveSpec_clean h path
    cases format <;>
      simp [resolveOneOutput, OutputConfig.toTargetIn, resolveSpec_abs_clean hp]

/-- Claim C9: the Output Target Normalizer is idempotent on paths —
feeding its resolved outputs back through it (re-resolving the now
absolute paths against the context directory) is a no-op. -/
theorem output_normalizer_idempotent (context : Path) (h : CleanSegs context.segs)
    (pr : Bool) (title : Option String) (targets : List OutputTargetIn) :
    resolveOutputs context pr title
        (some ((resolveOutputs context pr title (some targets)).map
          OutputConfig.toTargetIn)) =
      resolveOutputs context pr title (some targets) := by
  simp only [resolveOutputs, List.map_map]
  exact List.map_congr_left fun t _ => resolveOneOutput_roundtrip h pr t

/-- Witness for C9 at a concrete context and output list. -/
theorem output_normalizer_idempotent_witness :
    resolveOutputs ⟨["root"]⟩ false none
        (some ((resolveOutputs ⟨["root"]⟩ false none
          (some [{ path := .relp ["книга", "out.pdf"], format := .pdf }])).map
            OutputConfig.toTargetIn)) =
      resolveOutputs ⟨["root"]⟩ false none
        (some [{ path := .relp ["книга", "out.pdf"], format := .pdf }]) :=
  output_normalizer_idempotent ⟨["root"]⟩ (by decide) false none _

/-- Counterexample to claim C3: a configuration declaring an explicitly
empty output list resolves to zero outputs, so the resolved output list
does not always contain at least one output. -/
theorem outputs_empty_when_declared_empty :
    resolveOutputs ⟨["root"]⟩ false none (some []) = [] := rfl

/-- Claim C3 (amended): when the `output` field is absent the normalizer
synthesizes exactly one pdf output named `<title>.pdf` (`output.pdf`
without a truthy title) resolved against the context directory; a
declared output list resolves one output per declared target (and so can
be empty only when declared empty). -/
theorem outputs_default_synthesis (context : Path) (pr : Bool)
    (title : Option String) (l : List OutputTargetIn) :
    ((resolveOutputs context pr title (some l)).length = l.length)
    ∧ (∃ o, resolveOutputs context pr title none = [o] ∧ o.format = .pdf ∧
        o.path = resolveStr context (defaultPdfFilename title))
    ∧ (title = none → defaultPdfFilename title = "output.pdf")
    ∧ (∀ t, title = some t → t ≠ "" → defaultPdfFilename title = t ++ ".pdf") := by
  refine ⟨by simp [resolveOutputs], ⟨_, rfl, rfl, rfl⟩, ?_, ?_⟩
  · rintro rfl; rfl
  · rintro t rfl ht; simp [defaultPdfFilename, ht]

/-- Witness for C3 (amended) at concrete data. -/
theorem outputs_default_synthesis_witness :
    (resolveOutputs ⟨["root"]⟩ false (some "book") (some [])).length = 0
    ∧ defaultPdfFilename (some "book") = "book.pdf" := by
  have h := outputs_default_synthesis ⟨["root"]⟩ false (some "book") []
  exact ⟨h.1, h.2.2.2 "book" rfl (by decide)⟩

/-- Counterexample to claim C2: resolving the reference `./theme.css`
twice — once as the root theme and once as an entry-level override —
leaves two structurally equal but identity-distinct records in the
theme index, not one. -/
theorem theme_dedup_counterexample :
    themeDupResult =
      some (2,
        [ParsedTheme.file "theme.css" ⟨["proj", "theme.css"]⟩
            ⟨["proj", ".vivliostyle", "theme.css"]⟩,
         ParsedTheme.file "theme.css" ⟨["proj", "theme.css"]⟩
            ⟨["proj", ".vivliostyle", "theme.css"]⟩],
        [0, 1]) := by decide

/-- Claim C2 (amended): the theme index deduplicates by object identity
only — adding a record whose identity is already present leaves the
index unchanged, while every successful `parseTheme` call allocates a
record with a fresh identity, so two separate resolutions of the same
reference occupy two index entries. -/
theorem theme_identity_dedup :
    (∀ (s : RState) (t : ThemeRef), t.id ∈ s.themeIndexes.map ThemeRef.id →
        addTheme s t = s)
    ∧ (∀ tc env t s r s2, parseTheme tc env t s = .ok (r, s2) →
        r.id = s.nextId ∧ s2.nextId = s.nextId + 1) := by
  constructor
  · intro s t h
    rcases List.mem_map.mp h with ⟨x, hx, he⟩
    have hany : s.themeIndexes.any (fun x => x.id = t.id) = true :=
      List.any_eq_true.mpr ⟨x, hx, by simp [he]⟩
    simp [addTheme, hany]
  · intro tc env t s r s2 h
    simp only [parseTheme] at h
    repeat' split at h
    all_goals
      first
        | exact (Except.noConfusion h)
        | (injection h with hp
           injection hp with hp1 hp2
           subst hp1
           subst hp2
           exact ⟨rfl, rfl⟩)

/-- Witness for C2 (amended): re-adding an indexed record is a no-op,
and a concrete `parseTheme` call allocates the next identity. -/
theorem theme_identity_dedup_witness :
    addTheme wIdxState wIdxRef = wIdxState
    ∧ wIdxRef.id = ({} : RState).nextId :=
  ⟨theme_identity_dedup.1 wIdxState wIdxRef (by decide),
   (theme_identity_dedup.2 ⟨⟨[]⟩, ⟨[]⟩, ⟨[]⟩⟩ {}
      { specifier := .uri "https://example.com" } {} _ _ rfl).1⟩

/-- Claim C6 at its failing input (code bug): the entry fails with the
unrecognized-manuscript-type error as claimed, but the thrown message
interpolates the entry object itself — stringified as
`[object Object]` — so the message names the detected media type and
not the offending path. -/
theorem manuscript_type_error_message :
    parseEntry stdPCtx sampleEnv pngEntry {} =
      .error (.invalidManuscriptType (some "image/png") "[object Object]")
    ∧ (RErr.invalidManuscriptType (some "image/png") "[object Object]").message =
        "Invalid manuscript type image/png detected: [object Object]"
    ∧ strContains "Invalid manuscript type image/png detected: [object Object]"
        "image.png" = false := by
  refine ⟨by decide, by decide, by decide⟩

/-- Counterexample to claim C1: a project-mode manuscript entry whose
computed target is filesystem-identical to its source is not collision
checked — no alias is registered, no placeholder is touched, and the
effective target stays the source path itself. -/
theorem manuscript_no_collision_check :
    getTargetPath flatPCtx (.file ⟨["proj", "a.html"]⟩ "text/html") =
      ⟨["proj", "a.html"]⟩
    ∧ parseEntry flatPCtx sampleEnv { path := some (.relp ["a.html"]) } {} =
        .ok (.manuscript "text/html" none []
          (.file ⟨["proj", "a.html"]⟩ "text/html") ⟨["proj", "a.html"]⟩ none, {}) := by
  refine ⟨by decide, by decide⟩

/-- Claim C7: in single-input mode on `sample.md` with no project file,
the viewer input is a to-be-generated webpub manifest, the manuscript
target is `<workspaceDir>/<tmpPfx>sample.html`, an alias maps it back to
`<workspaceDir>/sample.html`, and a second alias maps the temporary
manifest to the canonical manifest path under the workspace. -/
theorem single_markdown_staging :
    singleMdResult =
      some (.webpub (.abs ["proj", ".vivliostyle", ".vs-100.publication.json"]) true,
        [⟨["proj", ".vivliostyle", ".vs-100.sample.html"]⟩],
        [⟨⟨["proj", ".vivliostyle", ".vs-100.sample.html"]⟩,
          ⟨["proj", ".vivliostyle", "sample.html"]⟩⟩,
         ⟨⟨["proj", ".vivliostyle", ".vs-100.publication.json"]⟩,
          ⟨["proj", ".vivliostyle", "publication.json"]⟩⟩])
    ∧ ".vs-100." ++ "sample.html" = ".vs-100.sample.html"
    ∧ ".vs-100." ++ MANIFEST_FILENAME = ".vs-100.publication.json" := by
  refine ⟨by decide, by decide, by decide⟩


theorem parseFileMetadata_no_themes (env : Env) (ct : String) (sp ws : Path)
    (td : Option Path) (s : RState) (md : Metadata) (s1 : RState)
    (h : parseFileMetadata env ct sp ws td s = .ok (md, s1))
    (hno : mdThemesAt env sp = none) :
    md.themes = none ∧ s1 = s := by
  simp only [parseFileMetadata] at h
  unfold mdThemesAt at hno
  split at h
  · split at h
    · rename_i td2 specs htd hspecs
      rw [hno] at hspecs
      exact Option.noConfusion hspecs
    · injection h with h2
      injection h2 with h3 h4
      subst h3
      exact ⟨rfl, h4.symm⟩
  · injection h with h2
    injection h2 with h3 h4
    subst h3
    exact ⟨rfl, h4.symm⟩

theorem getInputInfo_no_meta_themes (ctx : PCtx) (env : Env) (p : RawPath)
    (estr : String) (s : RState) (i : InputInfo) (s1 : RState)
    (hok : getInputInfo ctx env p estr s = .ok (i, s1))
    (hno : ∀ segs, p = RawPath.relp segs →
        mdThemesAt env ⟨normSegs ctx.entryContextDir.segs segs⟩ = none) :
    metaThemes i.meta = none := by
  cases p with
  | http u =>
      simp only [getInputInfo] at hok
      injection hok with h2
      injection h2 with h3 h4
      subst h3
      rfl
  | root segs tr =>
      simp only [getInputInfo] at hok
      injection hok with h2
      injection h2 with h3 h4
      subst h3
      rfl
  | relp segs =>
      simp only [getInputInfo] at hok
      cases hex : env.exists ⟨normSegs ctx.entryContextDir.segs segs⟩ with
      | false => rw [hex] at hok; simp at hok
      | true =>
        rw [hex] at hok
        simp only [if_pos rfl] at hok
        cases hmime : mime ⟨normSegs ctx.entryContextDir.segs segs⟩ with
        | none => rw [hmime] at hok; simp at hok
        | some ct =>
          rw [hmime] at hok
          simp only [] at hok
          cases hct : manuscriptMediaTypes.contains ct with
          | false => rw [hct] at hok; simp at hok
          | true =>
            rw [hct] at hok
            simp only [if_pos rfl] at hok
            cases hpfm : parseFileMetadata env ct ⟨normSegs ctx.entryContextDir.segs segs⟩
                ctx.workspaceDir (some ctx.themesDir) s with
            | error e => rw [hpfm] at hok; simp at hok
            | ok mds =>
              rw [hpfm] at hok
              cases mds with
              | mk md s3 =>
                injection hok with h2
                injection h2 with h3 h4
                subst h3
                have := parseFileMetadata_no_themes env ct
                  ⟨normSegs ctx.entryContextDir.segs segs⟩ ctx.workspaceDir
                  (some ctx.themesDir) s md s3 hpfm (hno segs rfl)
                simpa [InputInfo.meta, metaThemes] using this.1

theorem entryThemes_none (ctx : PCtx) (env : Env) (entry : EntryObject)
    (md : Option Metadata) (fb : List ThemeRef) (s : RState)
    (h : entry.theme = none) (hmd : metaThemes md = none) :
    entryThemes ctx env entry md fb s = .ok (fb, s) := by
  simp [entryThemes, h, hmd]

theorem getOptInputInfo_inv (ctx : PCtx) (env : Env) (entry : EntryObject)
    (s : RState) (oi : Option InputInfo) (s1 : RState)
    (h : getOptInputInfo ctx env entry s = .ok (oi, s1)) :
    (entry.path = none ∧ oi = none ∧ s1 = s) ∨
    (∃ p i, entry.path = some p ∧ oi = some i ∧
      getInputInfo ctx env p (entryToString entry) s = .ok (i, s1)) := by
  unfold getOptInputInfo at h
  split at h
  · rename_i p hp
    split at h
    · exact absurd h (by simp)
    · rename_i i s2 hgi
      injection h with h2
      injection h2 with h3 h4
      subst h4
      exact .inr ⟨p, i, hp, h3.symm, hgi⟩
  · rename_i hp
    injection h with h2
    injection h2 with h3 h4
    exact .inl ⟨hp, h3.symm, h4.symm⟩

theorem parseArticleEntry_default_themes (ctx : PCtx) (env : Env)
    (entry : EntryObject) (s : RState) (e : ParsedEntry) (s2 : RState)
    (hthm : entry.theme = none) (hmeta : noMetaThemes ctx env entry)
    (hok : parseArticleEntry ctx env entry s = .ok (e, s2)) :
    e.isCoverKind = false ∧ e.themes = ctx.rootThemes := by
  simp only [parseArticleEntry] at hok
  split at hok
  · exact absurd hok (by simp)
  · rename_i p hp
    split at hok
    · exact absurd hok (by simp)
    · rename_i i s1 hgi
      have hmt : metaThemes i.meta = none :=
        getInputInfo_no_meta_themes ctx env p _ s i s1 hgi
          (fun segs hseg => hmeta segs (by rw [hp, hseg]))
      rw [entryThemes_none ctx env entry i.meta ctx.rootThemes s1 hthm hmt] at hok
      injection hok with h2
      injection h2 with h3 h4
      subst h3
      exact ⟨rfl, rfl⟩

theorem parseContentsEntry_default_themes (ctx : PCtx) (env : Env)
    (entry : EntryObject) (s : RState) (e : ParsedEntry) (s2 : RState)
    (hthm : entry.theme = none) (hmeta : noMetaThemes ctx env entry)
    (hok : parseContentsEntry ctx env entry s = .ok (e, s2)) :
    e.isCoverKind = false ∧ e.themes = ctx.rootThemes := by
  simp only [parseContentsEntry] at hok
  split at hok
  · exact absurd hok (by simp)
  · rename_i oi s1 hgo
    have hmt : metaThemes (oi.bind InputInfo.meta) = none := by
      rcases getOptInputInfo_inv ctx env entry s oi s1 hgo with
        ⟨_, hoi, _⟩ | ⟨p, i, hp, hoi, hgi⟩
      · subst hoi; rfl
      · subst hoi
        simpa [metaThemes, Option.bind] using
          getInputInfo_no_meta_themes ctx env p _ s i s1 hgi
            (fun segs hseg => hmeta segs (by rw [hp, hseg]))
    rw [entryThemes_none ctx env entry (oi.bind InputInfo.meta) ctx.rootThemes s1 hthm hmt] at hok
    injection hok with h2
    injection h2 with h3 h4
    subst h3
    exact ⟨rfl, rfl⟩

theorem parseCoverEntry_default_themes (ctx : PCtx) (env : Env)
    (entry : EntryObject) (s : RState) (e : ParsedEntry) (s2 : RState)
    (hthm : entry.theme = none) (hmeta : noMetaThemes ctx env entry)
    (hok : parseCoverEntry ctx env entry s = .ok (e, s2)) :
    e.isCoverKind = true ∧ e.themes = [] := by
  simp only [parseCoverEntry] at hok
  split at hok
  · exact absurd hok (by simp)
  · rename_i oi s1 hgo
    have hmt : metaThemes (oi.bind InputInfo.meta) = none := by
      rcases getOptInputInfo_inv ctx env entry s oi s1 hgo with
        ⟨_, hoi, _⟩ | ⟨p, i, hp, hoi, hgi⟩
      · subst hoi; rfl
      · subst hoi
        simpa [metaThemes, Option.bind] using
          getInputInfo_no_meta_themes ctx env p _ s i s1 hgi
            (fun segs hseg => hmeta segs (by rw [hp, hseg]))
    rw [entryThemes_none ctx env entry (oi.bind InputInfo.meta) [] s1 hthm hmt] at hok
    split at hok
    · rename_i heq
      exact absurd heq (by simp)
    · rename_i themes s2x heq
      injection heq with heq2
      injection heq2 with heqT heqS
      subst heqT
      subst heqS
      split at hok
      all_goals
        first
          | exact (Except.noConfusion hok)
          | (injection hok with h2
             injection h2 with h3 h4
             subst h3
             exact ⟨rfl, rfl⟩)

theorem reinterpretEntry_fields (ctx : PCtx) (env : Env) (entry : EntryObject)
    (s : RState) :
    ((reinterpretEntry ctx env entry s).1.rel = entry.rel)
    ∧ ((reinterpretEntry ctx env entry s).1.theme = entry.theme)
    ∧ ((reinterpretEntry ctx env entry s).1.imageSrc = entry.imageSrc)
    ∧ ((reinterpretEntry ctx env entry s).1.path = entry.path ∨
        (reinterpretEntry ctx env entry s).1.path = none) := by
  simp only [reinterpretEntry]
  split
  · split
    · split <;> simp
    · simp
  · simp

/-- Claim C4: for every entry with no explicit theme override and no
front-matter (metadata) theme declaration, the resolved theme set is the
root theme set for manuscript and contents entries and empty for cover
entries. -/
theorem default_theme_sets (ctx : PCtx) (env : Env) (entry : EntryObject)
    (s : RState) (e : ParsedEntry) (s2 : RState)
    (hthm : entry.theme = none) (hmeta : noMetaThemes ctx env entry)
    (hok : parseEntry ctx env entry s = .ok (e, s2)) :
    e.themes = (if e.isCoverKind then [] else ctx.rootThemes) := by
  unfold parseEntry at hok
  obtain ⟨hr, ht, hi, hpOr⟩ := reinterpretEntry_fields ctx env entry s
  have hthm1 : (reinterpretEntry ctx env entry s).1.theme = none := ht.trans hthm
  have hmeta1 : noMetaThemes ctx env (reinterpretEntry ctx env entry s).1 := by
    intro segs hseg
    rcases hpOr with hsame | hnone
    · exact hmeta segs (hsame ▸ hseg)
    · rw [hnone] at hseg; exact Option.noConfusion hseg
  by_cases hc : (reinterpretEntry ctx env entry s).1.rel = some "contents"
  · rw [if_pos hc] at hok
    obtain ⟨h1, h2⟩ := parseContentsEntry_default_themes ctx env _ _ e s2 hthm1 hmeta1 hok
    rw [h1, h2]
    rfl
  · rw [if_neg hc] at hok
    by_cases hv : (reinterpretEntry ctx env entry s).1.rel = some "cover"
    · rw [if_pos hv] at hok
      obtain ⟨h1, h2⟩ := parseCoverEntry_default_themes ctx env _ _ e s2 hthm1 hmeta1 hok
      rw [h1, h2]
      rfl
    · rw [if_neg hv] at hok
      obtain ⟨h1, h2⟩ := parseArticleEntry_default_themes ctx env _ _ e s2 hthm1 hmeta1 hok
      rw [h1, h2]
      rfl

theorem parseTheme_err_ne_cover (tc : ThemeCtx) (env : Env) (t : ThemeObject)
    (s : RState) (e : RErr) (h : parseTheme tc env t s = .error e) :
    e ≠ RErr.missingCoverImage := by
  simp only [parseTheme] at h
  repeat' split at h
  all_goals
    first
      | exact (Except.noConfusion h)
      | (injection h with h2
         subst h2
         simp)

theorem parseThemeList_err_ne_cover (tc : ThemeCtx) (env : Env)
    (ts : List ThemeObject) (s : RState) (e : RErr)
    (h : parseThemeList tc env ts s = .error e) :
    e ≠ RErr.missingCoverImage := by
  induction ts generalizing s with
  | nil => exact (Except.noConfusion h)
  | cons t rest ih =>
      simp only [parseThemeList] at h
      split at h
      · rename_i e2 hpt
        injection h with h2
        subst h2
        exact parseTheme_err_ne_cover tc env t s _ hpt
      · rename_i r s1 hpt
        split at h
        · rename_i e2 hrest
          injection h with h2
          subst h2
          exact ih s1 hrest
        · exact (Except.noConfusion h)

theorem parseFileMetadata_err_ne_cover (env : Env) (ct : String) (sp ws : Path)
    (td : Option Path) (s : RState) (e : RErr)
    (h : parseFileMetadata env ct sp ws td s = .error e) :
    e ≠ RErr.missingCoverImage := by
  simp only [parseFileMetadata] at h
  split at h
  · split at h
    · split at h
      · injection h with h2
        subst h2
        rename_i td2 specs htd hspecs e2 hlist
        exact parseThemeList_err_ne_cover _ env specs s _ hlist
      · exact (Except.noConfusion h)
    · exact (Except.noConfusion h)
  · exact (Except.noConfusion h)

theorem getInputInfo_err_ne_cover (ctx : PCtx) (env : Env) (p : RawPath)
    (estr : String) (s : RState) (e : RErr)
    (h : getInputInfo ctx env p estr s = .error e) :
    e ≠ RErr.missingCoverImage := by
  cases p with
  | http u => exact (Except.noConfusion h)
  | root segs tr => exact (Except.noConfusion h)
  | relp segs =>
      simp only [getInputInfo] at h
      repeat' split at h
      all_goals
        first
          | exact (Except.noConfusion h)
          | (injection h with h2
             subst h2
             first
               | (intro hcontra; exact RErr.noConfusion hcontra)
               | (rename_i hpfm
                  exact parseFileMetadata_err_ne_cover env _ _ _ _ _ _ hpfm))

theorem getOptInputInfo_err_ne_cover (ctx : PCtx) (env : Env)
    (entry : EntryObject) (s : RState) (e : RErr)
    (h : getOptInputInfo ctx env entry s = .error e) :
    e ≠ RErr.missingCoverImage := by
  simp only [getOptInputInfo] at h
  repeat' split at h
  all_goals
    first
      | exact (Except.noConfusion h)
      | (injection h with h2
         subst h2
         rename_i hgi
         exact getInputInfo_err_ne_cover ctx env _ _ s _ hgi)

theorem entryThemes_err_ne_cover (ctx : PCtx) (env : Env) (entry : EntryObject)
    (md : Option Metadata) (fb : List ThemeRef) (s : RState) (e : RErr)
    (h : entryThemes ctx env entry md fb s = .error e) :
    e ≠ RErr.missingCoverImage := by
  simp only [entryThemes] at h
  split at h
  · rename_i ts hts
    exact parseThemeList_err_ne_cover _ env ts s _ h
  · exact (Except.noConfusion h)

theorem ensureCoverImage_err_ne_cover (ctx : PCtx) (env : Env)
    (src : Option RawPath) (e : RErr)
    (h : ensureCoverImage ctx env src = .error e) :
    e ≠ RErr.missingCoverImage := by
  simp only [ensureCoverImage] at h
  repeat' split at h
  all_goals
    first
      | exact (Except.noConfusion h)
      | (injection h with h2
         subst h2
         intro hcontra
         exact RErr.noConfusion hcontra)

/-- Claim C5: a cover entry declaring no image source in a project
declaring no cover fails with the missing-cover-image configuration
error, whose message names the `cover` property; when a source is
declared and the resolved image exists, that error cannot occur. -/
theorem cover_image_required :
    (∀ (ctx : PCtx) (env : Env) (entry : EntryObject) (s : RState),
        entry.rel = some "cover" → entry.path = none → entry.theme = none →
        entry.imageSrc = none → ctx.cover = none →
        parseEntry ctx env entry s = .error RErr.missingCoverImage)
    ∧ strContains (RErr.missingCoverImage).message "cover" = true
    ∧ (∀ (ctx : PCtx) (env : Env) (entry : EntryObject) (s : RState) (sp : RawPath),
        entry.rel = some "cover" →
        (entry.imageSrc <|> ctx.cover.map (fun c => RawPath.root c.src.segs false)) =
          some sp →
        env.exists (resolveRaw ctx.entryContextDir sp) = true →
        parseEntry ctx env entry s ≠ .error RErr.missingCoverImage) := by
  refine ⟨?_, by decide, ?_⟩
  · intro ctx env entry s hrel hpath hthm himg hcov
    simp [parseEntry, reinterpretEntry, parseCoverEntry, getOptInputInfo,
      entryThemes, metaThemes, ensureCoverImage, hrel, hpath, hthm, himg, hcov]
  · intro ctx env entry s sp hrel hsrc hex hcontra
    simp only [parseEntry] at hcontra
    obtain ⟨hr, ht, hi, _⟩ := reinterpretEntry_fields ctx env entry s
    rw [hr, hrel] at hcontra
    rw [if_neg (by simp : ¬(some "cover" : Option String) = some "contents"),
        if_pos rfl] at hcontra
    simp only [parseCoverEntry] at hcontra
    split at hcontra
    · rename_i e2 hgo
      injection hcontra with h2
      exact absurd h2 (getOptInputInfo_err_ne_cover ctx env _ _ e2 hgo)
    · rename_i oi s1 hgo
      split at hcontra
      · rename_i e2 hth
        injection hcontra with h2
        exact absurd h2 (entryThemes_err_ne_cover ctx env _ _ _ _ e2 hth)
      · rename_i themes s2x hth
        split at hcontra
        · rename_i e2 hec
          injection hcontra with h2
          exact absurd h2 (ensureCoverImage_err_ne_cover ctx env _ e2 hec)
        · rename_i hec
          rw [hi, hsrc] at hec
          simp only [ensureCoverImage] at hec
          rw [hex] at hec
          simp at hec
        · exact (Except.noConfusion hcontra)


theorem foldlAddTheme_preserves (ts : List ThemeRef) (s : RState) :
    (List.foldl addTheme s ts).exportAliases = s.exportAliases
    ∧ (List.foldl addTheme s ts).touched = s.touched
    ∧ (List.foldl addTheme s ts).warnings = s.warnings := by
  induction ts generalizing s with
  | nil => exact ⟨rfl, rfl, rfl⟩
  | cons t rest ih =>
      rw [List.foldl_cons]
      have hb : (addTheme s t).exportAliases = s.exportAliases
          ∧ (addTheme s t).touched = s.touched
          ∧ (addTheme s t).warnings = s.warnings := by
        unfold addTheme
        split <;> exact ⟨rfl, rfl, rfl⟩
      refine ⟨?_, ?_, ?_⟩
      · rw [(ih (addTheme s t)).1, hb.1]
      · rw [(ih (addTheme s t)).2.1, hb.2.1]
      · rw [(ih (addTheme s t)).2.2, hb.2.2]

theorem reinterpretEntry_missing (ctx : PCtx) (env : Env) (entry : EntryObject)
    (s : RState) (p : RawPath)
    (hrel : entry.rel = some "contents" ∨ entry.rel = some "cover")
    (hpath : entry.path = some p)
    (hex : env.exists (resolveRaw ctx.entryContextDir p) = false) :
    reinterpretEntry ctx env entry s =
      ({ entry with output := entry.path, path := none },
       { s with warnings := s.warnings ++
          [pathFallbackWarning (resolveRaw ctx.entryContextDir p)] }) := by
  simp only [reinterpretEntry, hpath]
  rw [if_pos hrel]
  rw [if_neg (by simp [hex])]

theorem reinterpretEntry_exists (ctx : PCtx) (env : Env) (entry : EntryObject)
    (s : RState) (p : RawPath)
    (hpath : entry.path = some p)
    (hex : env.exists (resolveRaw ctx.entryContextDir p) = true) :
    reinterpretEntry ctx env entry s = (entry, s) := by
  simp [reinterpretEntry, hpath, hex]

theorem getOptInputInfo_eq (ctx : PCtx) (env : Env) (entry : EntryObject)
    (s : RState) (p : RawPath) (i : InputInfo) (s1 : RState)
    (hpath : entry.path = some p)
    (hgi : getInputInfo ctx env p (entryToString entry) s = .ok (i, s1)) :
    getOptInputInfo ctx env entry s = .ok (some i, s1) := by
  simp only [getOptInputInfo, hpath, hgi]

theorem parseContents_output_only (ctx : PCtx) (env : Env) (entry : EntryObject)
    (s : RState) (o : RawPath)
    (hpath : entry.path = none) (hthm : entry.theme = none)
    (hout : entry.output = some o) :
    parseContentsEntry ctx env entry s =
      .ok (.contents (entry.title <|> ctx.projectTitle) ctx.rootThemes none
            (resolveRaw ctx.workspaceDir o) ctx.tocCfg.tocTitle
            ctx.tocCfg.sectionDepth entry.pageBreakBefore entry.pageCounterReset,
           List.foldl addTheme s ctx.rootThemes) := by
  simp only [parseContentsEntry, getOptInputInfo, entryThemes, metaThemes,
    collisionCheck, hpath, hthm, hout]
  simp [Option.bind]

/-- Claim C8: a contents or cover entry whose declared `path` names a
missing file does not fail: the path is reinterpreted as the `output`
field (the path is cleared) and a warning is logged; every error raised
by entry parsing propagates unchanged out of the composition. -/
theorem missing_path_reinterpreted :
    (∀ (ctx : PCtx) (env : Env) (entry : EntryObject) (s : RState) (p : RawPath),
        (entry.rel = some "contents" ∨ entry.rel = some "cover") →
        entry.path = some p →
        env.exists (resolveRaw ctx.entryContextDir p) = false →
        reinterpretEntry ctx env entry s =
          ({ entry with output := entry.path, path := none },
           { s with warnings := s.warnings ++
              [pathFallbackWarning (resolveRaw ctx.entryContextDir p)] }))
    ∧ (∀ (ctx : PCtx) (env : Env) (entry : EntryObject) (s : RState) (p : RawPath),
        entry.rel = some "contents" → entry.path = some p → entry.theme = none →
        env.exists (resolveRaw ctx.entryContextDir p) = false →
        ∃ e s2, parseEntry ctx env entry s = .ok (e, s2)
          ∧ e.target = resolveRaw ctx.workspaceDir p
          ∧ e.templateOf = none
          ∧ s2.warnings = s.warnings ++
              [pathFallbackWarning (resolveRaw ctx.entryContextDir p)])
    ∧ (∀ (c : CCtx) (cfg : BuildTask) (env : Env) (s : RState) (err : RErr),
        parseEntryList (projectPCtx c cfg env) env cfg.entry s = .error err →
        composeProjectConfig c cfg env s = .error err) := by
  refine ⟨reinterpretEntry_missing, ?_, ?_⟩
  · intro ctx env entry s p hrel hpath hthm hex
    simp only [parseEntry,
      reinterpretEntry_missing ctx env entry s p (Or.inl hrel) hpath hex]
    rw [if_pos hrel]
    rw [parseContents_output_only ctx env
      { entry with output := entry.path, path := none }
      { s with warnings := s.warnings ++
          [pathFallbackWarning (resolveRaw ctx.entryContextDir p)] }
      p rfl hthm hpath]
    refine ⟨_, _, rfl, rfl, rfl, ?_⟩
    rw [(foldlAddTheme_preserves ctx.rootThemes _).2.2]
  · intro c cfg env s err h
    simp only [composeProjectConfig]
    rw [h]

/-- Claim C1 (amended): for contents and cover entries whose file
source equals the computed (or output-overridden) target, resolution
substitutes the uniquely prefixed temporary sibling as the effective
target, registers the export alias back to the original path, and
touches the placeholder.  (The manuscript branch runs no such check; see
the counterexample above.) -/
theorem contents_cover_collision_alias :
    (∀ (ctx : PCtx) (env : Env) (entry : EntryObject) (s : RState)
        (segs : List Seg) (pn : Path) (ct : String) (md : Metadata) (s1 : RState),
      pn = ⟨normSegs ctx.entryContextDir.segs segs⟩ →
      entry.rel = some "contents" →
      entry.path = some (.relp segs) →
      env.exists pn = true →
      getInputInfo ctx env (.relp segs) (entryToString entry) s =
        .ok (.file pn ct md, s1) →
      entry.theme = none → md.themes = none →
      (match entry.output with
       | some o => resolveRaw ctx.workspaceDir o
       | none => getTargetPath ctx (.file pn ct)) = pn →
      ∃ e s2, parseEntry ctx env entry s = .ok (e, s2)
        ∧ e.target = tmpSibling ctx pn
        ∧ s2.exportAliases = s1.exportAliases ++ [⟨tmpSibling ctx pn, pn⟩]
        ∧ s2.touched = s1.touched ++ [tmpSibling ctx pn])
    ∧ (∀ (ctx : PCtx) (env : Env) (entry : EntryObject) (s : RState)
        (segs : List Seg) (pn : Path) (ct : String) (md : Metadata) (s1 : RState)
        (sp : RawPath),
      pn = ⟨normSegs ctx.entryContextDir.segs segs⟩ →
      entry.rel = some "cover" →
      entry.path = some (.relp segs) →
      env.exists pn = true →
      getInputInfo ctx env (.relp segs) (entryToString entry) s =
        .ok (.file pn ct md, s1) →
      entry.theme = none → md.themes = none →
      (entry.imageSrc <|> ctx.cover.map (fun c => RawPath.root c.src.segs false)) =
        some sp →
      env.exists (resolveRaw ctx.entryContextDir sp) = true →
      (match entry.output with
       | some o => resolveRaw ctx.workspaceDir o
       | none => getTargetPath ctx (.file pn ct)) = pn →
      ∃ e s2, parseEntry ctx env entry s = .ok (e, s2)
        ∧ e.target = tmpSibling ctx pn
        ∧ s2.exportAliases = s1.exportAliases ++ [⟨tmpSibling ctx pn, pn⟩]
        ∧ s2.touched = s1.touched ++ [tmpSibling ctx pn]) := by
  constructor
  · intro ctx env entry s segs pn ct md s1 hpn hrel hpath hex hgi hthm hmd htarget
    subst hpn
    simp only [parseEntry,
      reinterpretEntry_exists ctx env entry s _ hpath hex]
    rw [if_pos hrel]
    simp only [parseContentsEntry,
      getOptInputInfo_eq ctx env entry s _ _ _ hpath hgi,
      Option.bind, InputInfo.meta, InputInfo.toSource]
    rw [entryThemes_none ctx env entry (some md) ctx.rootThemes s1 hthm
      (by simp [metaThemes, hmd])]
    cases hout : entry.output with
    | some o =>
        rw [hout] at htarget
        have ht2 : resolveRaw ctx.workspaceDir o =
            (⟨normSegs ctx.entryContextDir.segs segs⟩ : Path) := htarget
        simp only [hout, Option.getD_some, collisionCheck]
        rw [ht2, if_pos rfl]
        refine ⟨_, _, rfl, rfl, ?_, ?_⟩ <;>
          simp [(foldlAddTheme_preserves ctx.rootThemes s1).1,
            (foldlAddTheme_preserves ctx.rootThemes s1).2.1]
    | none =>
        rw [hout] at htarget
        have ht2 : getTargetPath ctx
            (.file ⟨normSegs ctx.entryContextDir.segs segs⟩ ct) =
            (⟨normSegs ctx.entryContextDir.segs segs⟩ : Path) := htarget
        simp only [hout, Option.map, Option.getD_some, collisionCheck,
          InputInfo.toSource]
        rw [ht2, if_pos rfl]
        refine ⟨_, _, rfl, rfl, ?_, ?_⟩ <;>
          simp [(foldlAddTheme_preserves ctx.rootThemes s1).1,
            (foldlAddTheme_preserves ctx.rootThemes s1).2.1]
  · intro ctx env entry s segs pn ct md s1 sp hpn hrel hpath hex hgi hthm hmd hsrc hsex htarget
    subst hpn
    simp only [parseEntry,
      reinterpretEntry_exists ctx env entry s _ hpath hex]
    rw [if_neg (by rw [hrel]; simp), if_pos hrel]
    have hec : ensureCoverImage ctx env
        (entry.imageSrc <|> ctx.cover.map (fun c => RawPath.root c.src.segs false)) =
          .ok (some (resolveRaw ctx.entryContextDir sp)) := by
      rw [hsrc]
      simp only [ensureCoverImage]
      rw [if_pos hsex]
    simp only [parseCoverEntry,
      getOptInputInfo_eq ctx env entry s _ _ _ hpath hgi,
      Option.bind, InputInfo.meta, InputInfo.toSource]
    rw [entryThemes_none ctx env entry (some md) [] s1 hthm
      (by simp [metaThemes, hmd])]
    simp only [hec]
    cases hout : entry.output with
    | some o =>
        rw [hout] at htarget
        have ht2 : resolveRaw ctx.workspaceDir o =
            (⟨normSegs ctx.entryContextDir.segs segs⟩ : Path) := htarget
        simp only [hout, Option.getD_some, collisionCheck]
        rw [ht2, if_pos rfl]
        refine ⟨_, _, rfl, rfl, ?_, ?_⟩ <;>
          simp [(foldlAddTheme_preserves [] s1).1,
            (foldlAddTheme_preserves [] s1).2.1]
    | none =>
        rw [hout] at htarget
        have ht2 : getTargetPath ctx
            (.file ⟨normSegs ctx.entryContextDir.segs segs⟩ ct) =
            (⟨normSegs ctx.entryContextDir.segs segs⟩ : Path) := htarget
        simp only [hout, Option.map, Option.getD_some, collisionCheck,
          InputInfo.toSource]
        rw [ht2, if_pos rfl]
        refine ⟨_, _, rfl, rfl, ?_, ?_⟩ <;>
          simp [(foldlAddTheme_preserves [] s1).1,
            (foldlAddTheme_preserves [] s1).2.1]

theorem reinterpretEntry_article (ctx : PCtx) (env : Env) (entry : EntryObject)
    (s : RState) (h1 : entry.rel ≠ some "contents") (h2 : entry.rel ≠ some "cover") :
    reinterpretEntry ctx env entry s = (entry, s) := by
  unfold reinterpretEntry
  split
  · rw [if_neg (fun hc => hc.elim h1 h2)]
  · rfl

/-- Claim C10: a project-mode manuscript entry whose source is a URI (an
http(s) URL or a leading-slash path routed to the local preview server)
always resolves with contentType `text/html`, whatever the remote
content may be; a file-sourced manuscript entry instead carries the
media type detected from the resolved file. -/
theorem uri_entries_are_html :
    (∀ (ctx : PCtx) (env : Env) (entry : EntryObject) (s : RState)
        (p : RawPath) (e : ParsedEntry) (s2 : RState),
      entry.rel ≠ some "contents" → entry.rel ≠ some "cover" →
      entry.path = some p → (∀ segs, p ≠ RawPath.relp segs) →
      parseEntry ctx env entry s = .ok (e, s2) →
      e.contentTypeOf = some "text/html")
    ∧ (∀ (ctx : PCtx) (env : Env) (entry : EntryObject) (s : RState)
        (segs : List Seg) (e : ParsedEntry) (s2 : RState),
      entry.rel ≠ some "contents" → entry.rel ≠ some "cover" →
      entry.path = some (RawPath.relp segs) →
      parseEntry ctx env entry s = .ok (e, s2) →
      e.contentTypeOf = mime ⟨normSegs ctx.entryContextDir.segs segs⟩) := by
  constructor
  · intro ctx env entry s p e s2 h1 h2 hpath hnr h
    simp only [parseEntry, reinterpretEntry_article ctx env entry s h1 h2] at h
    rw [if_neg h1, if_neg h2] at h
    cases p with
    | relp segs => exact absurd rfl (hnr segs)
    | http u =>
        simp only [parseArticleEntry, hpath, getInputInfo, InputInfo.toSource,
          InputInfo.meta] at h
        split at h
        · exact (Except.noConfusion h)
        · injection h with h3
          injection h3 with h4 h5
          subst h4
          rfl
    | root segs tr =>
        simp only [parseArticleEntry, hpath, getInputInfo, InputInfo.toSource,
          InputInfo.meta] at h
        split at h
        · exact (Except.noConfusion h)
        · injection h with h3
          injection h3 with h4 h5
          subst h4
          rfl
  · intro ctx env entry s segs e s2 h1 h2 hpath h
    simp only [parseEntry, reinterpretEntry_article ctx env entry s h1 h2] at h
    rw [if_neg h1, if_neg h2] at h
    simp only [parseArticleEntry, hpath, getInputInfo] at h
    cases hex : env.exists ⟨normSegs ctx.entryContextDir.segs segs⟩ with
    | false => rw [hex] at h; simp at h
    | true =>
      rw [hex] at h
      simp only [if_pos rfl] at h
      cases hmime : mime ⟨normSegs ctx.entryContextDir.segs segs⟩ with
      | none => rw [hmime] at h; simp at h
      | some ct =>
        rw [hmime] at h
        simp only [] at h
        cases hct : manuscriptMediaTypes.contains ct with
        | false => rw [hct] at h; simp at h
        | true =>
          rw [hct] at h
          simp only [if_pos rfl] at h
          cases hpfm : parseFileMetadata env ct ⟨normSegs ctx.entryContextDir.segs segs⟩
              ctx.workspaceDir (some ctx.themesDir) s with
          | error er => rw [hpfm] at h; simp at h
          | ok mds =>
            rw [hpfm] at h
            cases mds with
            | mk md s3 =>
              split at h
              · exact (Except.noConfusion h)
              · rename_i i s1 heq
                simp only [if_true] at heq
                injection heq with heq2
                injection heq2 with h4 h5
                subst h4
                subst h5
                split at h
                · exact (Except.noConfusion h)
                · injection h with h3
                  injection h3 with h4 h5
                  subst h4
                  rfl

/-- Witness for C10: the remote entry `https://example.com/x` resolves
with contentType `text/html`. -/
theorem uri_entries_are_html_witness :
    uriParsed.contentTypeOf = some "text/html" :=
  uri_entries_are_html.1 stdPCtx sampleEnv uriEntry {} (.http uriUrl) uriParsed {}
    (by decide) (by decide) rfl
    (fun segs hc => RawPath.noConfusion hc)
    (by decide)

/-- Witness for C4: the manuscript entry `a.md` (no override, no
front-matter theme) inherits the root theme set of `rootedPCtx`. -/
theorem default_theme_sets_witness :
    c4Parsed.themes = (if c4Parsed.isCoverKind then [] else rootedPCtx.rootThemes) :=
  default_theme_sets rootedPCtx sampleEnv c4Entry {} c4Parsed c4S2 rfl
    (fun segs hseg => by
      injection hseg with h
      injection h with h2
      subst h2
      decide)
    (by decide)

/-- Witness for C5: a cover entry with no image source in a project
declaring no cover fails with the missing-cover-image error. -/
theorem cover_image_required_witness :
    parseEntry stdPCtx sampleEnv coverNoImgEntry {} = .error RErr.missingCoverImage :=
  cover_image_required.1 stdPCtx sampleEnv coverNoImgEntry {} rfl rfl rfl rfl rfl

/-- Witness for C8: a contents entry naming the missing file
`missing.md` resolves successfully, its declared path reinterpreted as
the output target, with the fallback warning logged. -/
theorem missing_path_reinterpreted_witness :
    ∃ e s2, parseEntry stdPCtx sampleEnv missEntry {} = .ok (e, s2)
      ∧ ParsedEntry.target e = resolveRaw stdPCtx.workspaceDir (.relp ["missing.md"])
      ∧ ParsedEntry.templateOf e = none
      ∧ RState.warnings s2 = ({} : RState).warnings ++
          [pathFallbackWarning (resolveRaw stdPCtx.entryContextDir (.relp ["missing.md"]))] :=
  missing_path_reinterpreted.2.1 stdPCtx sampleEnv missEntry {} (.relp ["missing.md"])
    rfl rfl rfl (by decide)

/-- Witness for C1 (amended): the contents entry `a.html` under the flat
workspace context collides with its computed target; the resolver
substitutes the temporary sibling, registers the alias and touches the
placeholder. -/
theorem contents_cover_collision_alias_witness :
    ∃ e s2, parseEntry flatPCtx sampleEnv colEntry {} = .ok (e, s2)
      ∧ ParsedEntry.target e = tmpSibling flatPCtx ⟨["proj", "a.html"]⟩
      ∧ RState.exportAliases s2 = ({} : RState).exportAliases ++
          [ExportAlias.mk (tmpSibling flatPCtx ⟨["proj", "a.html"]⟩) ⟨["proj", "a.html"]⟩]
      ∧ RState.touched s2 = ({} : RState).touched ++
          [tmpSibling flatPCtx ⟨["proj", "a.html"]⟩] :=
  contents_cover_collision_alias.1 flatPCtx sampleEnv colEntry {} ["a.html"]
    ⟨["proj", "a.html"]⟩ "text/html" {} {} (by decide) rfl rfl (by decide) (by decide)
    rfl rfl (by decide)

end Spec2Proof
